import Mathlib

/-!
Verification development for the multi-agent query system
(`backend/main.py`, `backend/agents/caching_agent.py`,
`backend/agents/decision_agent.py`, `backend/agents/langgraph_orchestrator.py`).

The Python code is shallowly embedded: dictionaries become association
lists, `datetime` instants become integers, exceptions become `Except`,
and calls to external collaborators (news / research / sentiment handlers,
the summarizer, the frontend formatter, the learning agent) are supplied
through explicit environment records.  Float-valued scores are embedded as
exactly scaled integers (noted at each definition).
-/

set_option autoImplicit false

namespace AgentSys

/-- A JSON-like value mirroring the Python dict/list/str/int/bool/None payloads
that flow between the agents. -/
inductive Val where
  | vnone
  | vbool (b : Bool)
  | vstr (s : String)
  | vnat (n : Nat)
  | obj (fields : List (String × Val))
  | arr (elems : List Val)

/-- Python truthiness of a value (`if value:`): `None`, `False`, `""`, `0`,
`{}` and `[]` are falsy. -/
def Val.truthy : Val → Bool
  | .vnone => false
  | .vbool b => b
  | .vstr s => s != ""
  | .vnat n => n != 0
  | .obj fields => !fields.isEmpty
  | .arr elems => !elems.isEmpty

/-- `d.get(key)` on a Python dict: first binding wins. -/
def lookupField (k : String) : List (String × Val) → Option Val
  | [] => none
  | (k', v) :: rest => if k' = k then some v else lookupField k rest

/-- `d.get(key)` on an embedded dict value; `None` for non-dicts. -/
def Val.get (v : Val) (k : String) : Option Val :=
  match v with
  | .obj fields => lookupField k fields
  | _ => none

/-- Truthiness of a `d.get(key)` result (`if d.get(key):`). -/
def truthyOpt : Option Val → Bool
  | none => false
  | some v => v.truthy

/-- Dict assignment `d[k] = v`: replaces an existing binding in place,
otherwise appends (Python dict insertion order). -/
def setField (k : String) (v : Val) : List (String × Val) → List (String × Val)
  | [] => [(k, v)]
  | (k', v') :: rest => if k' = k then (k, v) :: rest else (k', v') :: setField k v rest

/-- `result[k] = v` on an embedded value; on a non-dict the Python statement
would raise, which every call site catches and ignores, so the value is
returned unchanged there. -/
def Val.setKey (r : Val) (k : String) (v : Val) : Val :=
  match r with
  | .obj fields => .obj (setField k v fields)
  | other => other

/-- Size of a value in bytes: stands in for
`CachingAgent._calculate_size` (the length of the pickled/JSON serialization,
which is not representable here; only the existence of some size function is
used by the theorems, so a shallow measure suffices). -/
def Val.size : Val → Nat
  | .vnone => 1
  | .vbool _ => 1
  | .vstr s => s.length + 1
  | .vnat n => n + 1
  | .obj fields => fields.length + 1
  | .arr elems => elems.length + 1

/-! ## Response cache (`caching_agent.py`)

Time is an integer clock passed to every operation (`datetime.now()`).
Persistence mirrors the in-memory map and is not modelled separately. -/

/-- `CacheEntry` (caching_agent.py lines 31-40).  `cache_type` is kept as its
string value. -/
structure CacheEntry where
  key : String
  value : Val
  cacheType : String
  createdAt : Int
  lastAccessed : Int
  accessCount : Nat
  ttlSeconds : Option Int
  sizeBytes : Nat

/-- The two `CacheConfig` fields the claims depend on (lines 42-49); the
defaults are `max_size_mb = 100`, `default_ttl_seconds = 3600`. -/
structure CacheConfig where
  maxSizeMb : Nat
  defaultTtlSeconds : Int

/-- In-memory cache state: the `self.cache` dict (insertion-ordered, keys
unique) plus the `cache_stats` counters. -/
structure CacheState where
  entries : List CacheEntry
  hits : Nat
  misses : Nat
  evictions : Nat
  totalRequests : Nat

def emptyCache : CacheState := ⟨[], 0, 0, 0, 0⟩

/-- The byte budget `max_size_mb * 1024 * 1024` (line 265). -/
def budget (cfg : CacheConfig) : Nat := cfg.maxSizeMb * 1024 * 1024

/-- `sum(entry.size_bytes for entry in self.cache.values())`. -/
def sizeSum (l : List CacheEntry) : Nat := (l.map CacheEntry.sizeBytes).sum

def totalSize (s : CacheState) : Nat := sizeSum s.entries

/-- `CachingAgent._is_expired` (lines 254-260). -/
def isExpired (now : Int) (e : CacheEntry) : Bool :=
  match e.ttlSeconds with
  | none => false
  | some t => now > e.createdAt + t

/-- Truthiness of `entry.ttl_seconds` (`None` and `0` are falsy), as tested
by the guard in `get` (line 100). -/
def ttlTruthy : Option Int → Bool
  | none => false
  | some t => t ≠ 0

/-- Python `ttl_seconds or self.config.default_ttl_seconds` (line 132):
a falsy left operand (absent or zero) is replaced by the default. -/
def pyOrTtl (o : Option Int) (d : Int) : Int :=
  match o with
  | none => d
  | some t => if t = 0 then d else t

/-- `key in self.cache` / `self.cache[key]`. -/
def lookupEntry (k : String) : List CacheEntry → Option CacheEntry
  | [] => none
  | e :: rest => if e.key = k then some e else lookupEntry k rest

/-- `del self.cache[key]` (delete, lines 148-162; stats untouched). -/
def deleteKey (k : String) (s : CacheState) : CacheState :=
  { s with entries := s.entries.filter (fun e => ¬ e.key = k) }

/-- The access-info update in `get` (lines 105-107). -/
def touchEntry (now : Int) (k : String) (l : List CacheEntry) : List CacheEntry :=
  l.map (fun e => if e.key = k then { e with lastAccessed := now, accessCount := e.accessCount + 1 } else e)

/-- `CachingAgent.get` (lines 92-113): returns the hit value (if any) and the
updated cache state. -/
def cacheGet (now : Int) (k : String) (s : CacheState) : Option Val × CacheState :=
  let s := { s with totalRequests := s.totalRequests + 1 }
  match lookupEntry k s.entries with
  | some e =>
    if ttlTruthy e.ttlSeconds ∧ isExpired now e then
      (none, { deleteKey k s with misses := s.misses + 1 })
    else
      (some e.value, { s with entries := touchEntry now k s.entries, hits := s.hits + 1 })
  | none => (none, { s with misses := s.misses + 1 })

/-- The LRU snapshot `sorted(self.cache.items(), key=lambda x: x[1].last_accessed)`
(lines 274-277), as a stable insertion sort. -/
def insertLRU (e : CacheEntry) : List CacheEntry → List CacheEntry
  | [] => [e]
  | x :: xs => if e.lastAccessed < x.lastAccessed then e :: x :: xs else x :: insertLRU e xs

def sortLRU : List CacheEntry → List CacheEntry
  | [] => []
  | x :: xs => insertLRU x (sortLRU xs)

/-- The eviction loop of `_evict_entries` (lines 279-286): walking the LRU
snapshot, collect the entries deleted before `freed_space >= required_space`
first holds. -/
def evictLoop (required : Nat) : Nat → List CacheEntry → List CacheEntry
  | _, [] => []
  | freed, e :: rest =>
    if required ≤ freed then [] else e :: evictLoop required (freed + e.sizeBytes) rest

/-- `CachingAgent._evict_entries` (lines 271-286): delete the collected keys
from the cache and count one eviction per entry removed. -/
def evictEntries (required : Nat) (s : CacheState) : CacheState :=
  let ds := evictLoop required 0 (sortLRU s.entries)
  { s with
    entries := s.entries.filter (fun e => ¬ ds.any (fun d => d.key = e.key)),
    evictions := s.evictions + ds.length }

/-- `CachingAgent._check_and_evict` (lines 262-269). -/
def checkAndEvict (cfg : CacheConfig) (newSize : Nat) (s : CacheState) : CacheState :=
  if totalSize s + newSize > budget cfg then evictEntries newSize s else s

/-- `self.cache[key] = entry`: replace an existing binding in place, else
append. -/
def insertEntry (e : CacheEntry) : List CacheEntry → List CacheEntry
  | [] => [e]
  | x :: xs => if x.key = e.key then e :: xs else x :: insertEntry e xs

/-- The `CacheEntry` built by `set` (lines 126-134). -/
def mkSetEntry (cfg : CacheConfig) (now : Int) (k : String) (v : Val) (cacheType : String)
    (sizeBytes : Nat) (ttl : Option Int) : CacheEntry :=
  { key := k, value := v, cacheType := cacheType, createdAt := now, lastAccessed := now,
    accessCount := 0, ttlSeconds := some (pyOrTtl ttl cfg.defaultTtlSeconds),
    sizeBytes := sizeBytes }

/-- `CachingAgent.set` (lines 115-146).  `sizeBytes` is the already computed
`_calculate_size(value)`. -/
def cacheSet (cfg : CacheConfig) (now : Int) (k : String) (v : Val) (cacheType : String)
    (sizeBytes : Nat) (ttl : Option Int) (s : CacheState) : CacheState :=
  let s1 := checkAndEvict cfg sizeBytes s
  { s1 with entries := insertEntry (mkSetEntry cfg now k v cacheType sizeBytes ttl) s1.entries }

/-- `CachingAgent._cleanup_expired` (lines 299-307): the background sweep
deletes every expired entry. -/
def cleanupExpired (now : Int) (s : CacheState) : CacheState :=
  { s with entries := s.entries.filter (fun e => ¬ isExpired now e) }

/-- One cache operation, stamped with the clock value at which it runs.  A
`set`'s `size` field stands for `_calculate_size(value)`. -/
inductive CacheOp where
  | set (now : Int) (key : String) (value : Val) (size : Nat) (ttl : Option Int)
  | get (now : Int) (key : String)
  | del (key : String)
  | sweep (now : Int)

def applyOp (cfg : CacheConfig) (s : CacheState) : CacheOp → CacheState
  | .set now k v sz ttl => cacheSet cfg now k v "query_result" sz ttl s
  | .get now k => (cacheGet now k s).2
  | .del k => deleteKey k s
  | .sweep now => cleanupExpired now s

def runOps (cfg : CacheConfig) (ops : List CacheOp) (s : CacheState) : CacheState :=
  ops.foldl (applyOp cfg) s

/-- The inserted value's serialized size fits in the byte budget (trivially
true of the non-inserting operations). -/
def opSizeOK (cfg : CacheConfig) : CacheOp → Prop
  | .set _ _ _ sz _ => sz ≤ budget cfg
  | _ => True

/-- Every `set` in the sequence inserts a value whose serialized size fits in
the byte budget. -/
def SizesFit (cfg : CacheConfig) (ops : List CacheOp) : Prop :=
  ∀ op ∈ ops, opSizeOK cfg op

/-- The cache keys are pairwise distinct (true of every state reachable from
the empty cache, since the state is a Python dict). -/
def KeysNodup (s : CacheState) : Prop := (s.entries.map CacheEntry.key).Nodup

/-- Every live entry has a truthy TTL (neither `None` nor `0`): true of every
entry created by `set` under a nonzero configured default TTL. -/
def TtlInv (s : CacheState) : Prop :=
  ∀ e ∈ s.entries, e.ttlSeconds ≠ none ∧ e.ttlSeconds ≠ some 0

/-! ## Decision router (`decision_agent.py`)

The intent patterns are fixed regular expressions of two shapes: a single
word-bounded alternation `\b(w1|w2|...)\b`, and a sequence of literal
alternations joined by `.*`.  Both are embedded as executable matchers over
the lowercased character list.  A word-bounded alternation contributes its
number of matches to the intent score; a `.*`-sequence pattern contributes
1 when it matches and 0 otherwise (its exact `findall` count is not needed:
every property proved below depends only on whether a score is zero).
The optional OpenAI score boost is absent (no API key configured). -/

/-- Python `str.lower()`.  (`String.toLower` is well-founded-recursive in
core and does not evaluate in the kernel; this structural version does.) -/
def lowerStr (s : String) : String := String.mk (s.data.map Char.toLower)

def isSpaceChar (c : Char) : Bool := c == ' ' || c == '\t' || c == '\n' || c == '\r'

/-- Python `str.strip()` (structural). -/
def trimStr (s : String) : String :=
  String.mk (((s.data.dropWhile isSpaceChar).reverse.dropWhile isSpaceChar).reverse)

/-- Python regex `\w` on the ASCII queries considered here. -/
def isWordChar (c : Char) : Bool := c.isAlphanum || c == '_'

/-- One literal alternation `(a1|a2|...)`, with or without `\b` boundaries. -/
structure Tok where
  alts : List String
  bounded : Bool

def boundaryBefore (pre : Option Char) : Bool :=
  match pre with
  | none => true
  | some c => !isWordChar c

def boundaryAfter (rest : List Char) : Bool :=
  match rest with
  | [] => true
  | c :: _ => !isWordChar c

/-- Does alternative `a` match at the current position (`pre` is the previous
character, used for the left word boundary)? -/
def altMatch (bounded : Bool) (pre : Option Char) (a : List Char) (l : List Char) : Bool :=
  a.isPrefixOf l && (!bounded || (boundaryBefore pre && boundaryAfter (l.drop a.length)))

def tokMatchesAt (t : Tok) (pre : Option Char) (l : List Char) : Bool :=
  t.alts.any (fun a => altMatch t.bounded pre a.data l)

/-- Count the positions at which a word-bounded alternation matches (for
`\b(...)\b` this equals the `re.findall` match count: bounded matches cannot
overlap). -/
def scanCount (t : Tok) : Option Char → List Char → Nat
  | _, [] => 0
  | pre, c :: rest => (if tokMatchesAt t pre (c :: rest) then 1 else 0) + scanCount t (some c) rest

/-- Last character of a matched alternative, as the `pre` for what follows. -/
def lastCharOpt (a : String) (pre : Option Char) : Option Char :=
  match a.data.getLast? with
  | some c => some c
  | none => pre

/-- Does the token sequence `toks` (joined by `.*`) match somewhere in `l`?
Fuel-based so that the definition is structural and evaluates in the kernel;
each step either consumes a character or a token, so `l.length + 8` fuel is
ample for the 2-3 token patterns below. -/
def seqExistsF : Nat → List Tok → Option Char → List Char → Bool
  | 0, _, _, _ => false
  | _ + 1, [], _, _ => true
  | fuel + 1, t :: ts, pre, l =>
    match l with
    | [] => false
    | c :: rest =>
      (t.alts.any fun a =>
        altMatch t.bounded pre a.data (c :: rest) &&
        seqExistsF fuel ts (lastCharOpt a pre) ((c :: rest).drop a.data.length)) ||
      seqExistsF fuel (t :: ts) (some c) rest

def seqMatches (toks : List Tok) (l : List Char) : Bool :=
  seqExistsF (l.length + 8) toks none l

/-- One intent pattern, in the two shapes used by `self.intent_patterns`. -/
inductive Pat where
  | words (alts : List String)
  | seq (toks : List Tok)

def patScore (q : List Char) : Pat → Nat
  | .words alts => scanCount ⟨alts, true⟩ none q
  | .seq toks => if seqMatches toks q then 1 else 0

def intentScore (q : List Char) (ps : List Pat) : Nat := (ps.map (patScore q)).sum

/-- `self.intent_patterns[QueryIntent.NEWS]` (lines 77-82). -/
def newsPatterns : List Pat :=
  [ .words ["news", "latest", "recent", "update", "announcement", "breaking"],
    .seq [⟨["technology", "tech", "ai", "artificial intelligence"], true⟩,
          ⟨["news", "update", "latest"], true⟩],
    .seq [⟨["what"], false⟩, ⟨["happening"], false⟩, ⟨["tech", "ai", "technology"], false⟩],
    .seq [⟨["tell me"], false⟩, ⟨["latest"], false⟩, ⟨["news", "update"], false⟩] ]

/-- `self.intent_patterns[QueryIntent.RESEARCH]` (lines 83-88). -/
def researchPatterns : List Pat :=
  [ .words ["what is", "how does", "explain", "tell me about", "research", "find", "search"],
    .words ["knowledge", "information", "document", "study", "analysis"],
    .seq [⟨["can you"], false⟩, ⟨["explain", "describe", "tell me"], false⟩],
    .seq [⟨["i want to know"], false⟩, ⟨["about"], false⟩] ]

/-- `self.intent_patterns[QueryIntent.SENTIMENT]` (lines 89-94). -/
def sentimentPatterns : List Pat :=
  [ .words ["sentiment", "emotion", "feeling", "mood", "opinion", "attitude"],
    .words ["analyze", "analysis", "positive", "negative", "neutral"],
    .seq [⟨["how"], false⟩, ⟨["feel"], false⟩, ⟨["about"], false⟩],
    .seq [⟨["what"], false⟩, ⟨["opinion"], false⟩, ⟨["about"], false⟩] ]

inductive QueryIntent where
  | news | research | sentiment | multiAgent | unknown
deriving DecidableEq

inductive QueryComplexity where
  | simple | moderate | complex
deriving DecidableEq

/-- `DecisionAgent._detect_intent` (lines 152-180) on the lowercased query.
The float confidence `min(score / 3.0, 1.0)` is stored exactly as three
times its value, i.e. `min score 3`; confidence 0.0 corresponds to 0.
`max(scores, key=scores.get)` takes the first maximal key in the dict order
NEWS, RESEARCH, SENTIMENT. -/
def detectIntent (ql : List Char) : QueryIntent × Nat :=
  let sNews := intentScore ql newsPatterns
  let sRes := intentScore ql researchPatterns
  let sSent := intentScore ql sentimentPatterns
  if max sNews (max sRes sSent) = 0 then
    (QueryIntent.unknown, 0)
  else
    let best :=
      if sRes ≤ sNews ∧ sSent ≤ sNews then QueryIntent.news
      else if sSent ≤ sRes then QueryIntent.research
      else QueryIntent.sentiment
    (best, min (max sNews (max sRes sSent)) 3)

/-- The stop-word set of `_extract_keywords` (line 130). -/
def stopWords : List String :=
  ["the", "a", "an", "and", "or", "but", "in", "on", "at", "to", "for", "of", "with", "by",
   "is", "are", "was", "were", "be", "been", "have", "has", "had", "do", "does", "did",
   "will", "would", "could", "should", "may", "might", "can", "this", "that", "these",
   "those", "i", "you", "he", "she", "it", "we", "they", "me", "him", "her", "us", "them"]

/-- Maximal runs of word characters: `re.findall(r'\b\w+\b', query)`. -/
def wordRunsAux (cur : List Char) : List Char → List String
  | [] => if cur.isEmpty then [] else [String.mk cur.reverse]
  | c :: rest =>
    if isWordChar c then wordRunsAux (c :: cur) rest
    else if cur.isEmpty then wordRunsAux [] rest
    else String.mk cur.reverse :: wordRunsAux [] rest

def wordRuns (l : List Char) : List String := wordRunsAux [] l

/-- `DecisionAgent._extract_keywords` (lines 127-136) on the lowercased query. -/
def extractKeywords (ql : List Char) : List String :=
  (wordRuns ql).filter (fun w => !(stopWords.contains w) && w.length > 2)

/-- Substring test (Python `pat in s`). -/
def strContainsChars (pat : List Char) : List Char → Bool
  | [] => pat.isEmpty
  | c :: rest => pat.isPrefixOf (c :: rest) || strContainsChars pat rest

def strContains (s pat : String) : Bool := strContainsChars pat.data s.data

/-- The entity table of `_extract_entities` (line 144). -/
def techEntities : List String :=
  ["ai", "artificial intelligence", "machine learning", "deep learning", "neural network",
   "chatgpt", "openai", "google", "microsoft", "apple", "iphone", "android", "python",
   "javascript", "react", "node.js"]

/-- `DecisionAgent._extract_entities` (lines 138-150) on the lowercased query:
substring containment. -/
def extractEntities (ql : List Char) : List String :=
  techEntities.filter (fun e => strContainsChars e.data ql)

def complexIndicators : List String :=
  ["compare", "analyze", "evaluate", "explain", "describe", "discuss",
   "pros and cons", "advantages and disadvantages"]

/-- `DecisionAgent._assess_complexity` (lines 210-243), with the float score
scaled exactly by 10 (weights 2, 1, 0.5, 0.3, 1, 1 become 20, 10, 5, 3, 10,
10; thresholds 4 and 2 become 40 and 20). -/
def assessComplexity10 (query : String) (keywords entities : List String) : Nat :=
  let lenScore := if query.length > 100 then 20 else if query.length > 50 then 10 else 0
  let ql := (lowerStr query).data
  let ind := 10 * (complexIndicators.filter (fun s => strContainsChars s.data ql)).length
  let qm := if (query.data.filter (fun c => c == '?')).length > 1 then 10 else 0
  lenScore + 5 * keywords.length + 3 * entities.length + ind + qm

def assessComplexity (query : String) (keywords entities : List String) : QueryComplexity :=
  let s := assessComplexity10 query keywords entities
  if 40 ≤ s then .complex else if 20 ≤ s then .moderate else .simple

/-- The fields of `AgentCapability` the router reads (lines 36-42). -/
structure AgentCapability where
  name : String
  keywords : List String
  maxComplexity : QueryComplexity
  priority : Nat

/-- `self.agent_capabilities` (lines 51-73), in dict order. -/
def agentCapabilities : List (String × AgentCapability) :=
  [ ("news_agent",
      ⟨"News Agent",
       ["news", "latest", "recent", "technology", "tech", "ai", "artificial intelligence",
        "update", "announcement"], .moderate, 1⟩),
    ("research_agent",
      ⟨"Research Agent",
       ["research", "document", "knowledge", "find", "search", "what is", "how does",
        "explain", "tell me about", "information"], .complex, 2⟩),
    ("sentiment_agent",
      ⟨"Sentiment Agent",
       ["sentiment", "emotion", "feeling", "mood", "opinion", "attitude", "analyze",
        "analysis", "positive", "negative"], .simple, 3⟩) ]

def lookupCap (n : String) : Option AgentCapability :=
  match agentCapabilities.lookup n with
  | some c => some c
  | none => none

def complexityLevel : QueryComplexity → Nat
  | .simple => 1
  | .moderate => 2
  | .complex => 3

/-- `DecisionAgent._can_handle_complexity` (lines 284-292). -/
def canHandle (cap : AgentCapability) (c : QueryComplexity) : Bool :=
  complexityLevel c ≤ complexityLevel cap.maxComplexity

/-- `list(dict.fromkeys(xs))`: dedupe preserving first occurrence. -/
def dedupFirstAux (seen : List String) : List String → List String
  | [] => []
  | x :: xs => if seen.contains x then dedupFirstAux seen xs else x :: dedupFirstAux (x :: seen) xs

def dedupFirst (xs : List String) : List String := dedupFirstAux [] xs

/-- Sort key `priority` with default 999 for unknown names (line 280). -/
def priorityOf (n : String) : Nat :=
  match lookupCap n with
  | some c => c.priority
  | none => 999

/-- Python's stable `list.sort(key=priority)` as a stable insertion sort. -/
def insertPrio (x : String) : List String → List String
  | [] => [x]
  | y :: ys => if priorityOf x < priorityOf y then x :: y :: ys else y :: insertPrio x ys

def sortPrio : List String → List String
  | [] => []
  | x :: xs => insertPrio x (sortPrio xs)

/-- The intent-based suggestions of `_suggest_agents` (lines 249-257). -/
def intentSuggestions : QueryIntent → List String
  | .news => ["news_agent"]
  | .research => ["research_agent"]
  | .sentiment => ["sentiment_agent"]
  | .multiAgent => ["news_agent", "research_agent", "sentiment_agent"]
  | .unknown => []

/-- The keyword table pass of `_suggest_agents` (lines 259-265): each
capability not already suggested is appended when some extracted keyword is
in its keyword list. -/
def keywordSuggestions (base : List String) : List String → List (String × AgentCapability) → List String
  | _, [] => base
  | keywords, (n, cap) :: rest =>
    if !(base.contains n) && keywords.any (fun k => cap.keywords.contains k) then
      keywordSuggestions (base ++ [n]) keywords rest
    else
      keywordSuggestions base keywords rest

/-- `DecisionAgent._suggest_agents` (lines 245-282). -/
def suggestAgents (intent : QueryIntent) (complexity : QueryComplexity)
    (keywords : List String) : List String :=
  let s2 := keywordSuggestions (intentSuggestions intent) keywords agentCapabilities
  let filtered := s2.filter (fun n =>
    match lookupCap n with
    | some cap => canHandle cap complexity
    | none => false)
  let filtered := if filtered.isEmpty then ["research_agent"] else filtered
  sortPrio (dedupFirst filtered)

/-- `QueryAnalysis` (lines 26-34); the reasoning string is not consumed by
any property and is omitted.  `confidence3` is three times the float
confidence (see `detectIntent`). -/
structure QueryAnalysis where
  intent : QueryIntent
  complexity : QueryComplexity
  confidence3 : Nat
  keywords : List String
  entities : List String
  suggestedAgents : List String

/-- `DecisionAgent.analyze_query` (lines 97-125). -/
def analyzeQuery (query : String) : QueryAnalysis :=
  let ql := (lowerStr query).data
  let keywords := extractKeywords ql
  let entities := extractEntities ql
  let det := detectIntent ql
  let complexity := assessComplexity query keywords entities
  { intent := det.1, complexity := complexity, confidence3 := det.2,
    keywords := keywords, entities := entities,
    suggestedAgents := suggestAgents det.1 complexity keywords }

/-- The parts of the coordination plan of `coordinate_agents` (lines 315-346)
that `process_query` consumes: the analysis, the execution-plan agent names,
and the parallel flag. -/
structure CoordinationPlan where
  analysis : QueryAnalysis
  executionPlan : List String
  parallelExecution : Bool

def coordinateAgents (query : String) : CoordinationPlan :=
  let a := analyzeQuery query
  if a.suggestedAgents.length > 1 then
    ⟨a, a.suggestedAgents, true⟩
  else
    ⟨a, [a.suggestedAgents.headD ""], false⟩

/-! ## Workflow engine (`langgraph_orchestrator.py`)

`WorkflowState` is threaded through the node handlers; timestamps are an
opaque string supplied by the environment; the agent invocations, the
summarizer, and the frontend formatter are environment functions returning
`Except` (exception or value).  The `asyncio.wait_for` deadline around the
gathered agent tasks is modelled by the `globalTimeout` flag: a capability
still running at the deadline makes the single enclosing `wait_for` raise
`TimeoutError`, since the gather waits for all tasks.  Routing follows the
conditional edges registered in `_build_workflow_graph` (lines 100-145),
whose branch function is `_should_continue`. -/

/-- `WorkflowState` (lines 23-32): `messages` keeps only the message
contents, as `execute_workflow` does on return. -/
structure WState where
  query : String
  userId : String
  currentStep : String
  agentResults : List (String × Val)
  finalResult : Option Val
  error : Option String
  metadata : List (String × Val)
  messages : List String

/-- Environment of one workflow run: the registered agent names
(`self.agents`), the outcome of each external call, and the exception
injection points corresponding to the handlers' `except` branches. -/
structure OEnv where
  agents : List String
  langgraphAvailable : Bool
  analyzeRaises : Option String
  runs : String → Except String Val
  globalTimeout : Bool
  summarize : String → List (String × Val) → Except String Val
  fmt : Val → String → Except String Val
  nowStr : String
  workflowId : String
  ainvokeRaises : Option String
  fallbackRaises : Option String

/-- Truthiness of `state.get("error")` as tested by `_should_continue`
(lines 383-387). -/
def errTruthy (st : WState) : Bool :=
  match st.error with
  | some s => s != ""
  | none => false

def intentStr : QueryIntent → String
  | .news => "news"
  | .research => "research"
  | .sentiment => "sentiment"
  | .multiAgent => "multi_agent"
  | .unknown => "unknown"

def complexityStr : QueryComplexity → String
  | .simple => "simple"
  | .moderate => "moderate"
  | .complex => "complex"

/-- The `query_analysis` dict stored in the metadata (lines 179-185).  Only
`suggested_agents` is consumed downstream; the float `confidence` and the
`reasoning` string are omitted. -/
def analysisToVal (a : QueryAnalysis) : Val :=
  .obj [("intent", .vstr (intentStr a.intent)),
        ("complexity", .vstr (complexityStr a.complexity)),
        ("suggested_agents", .arr (a.suggestedAgents.map Val.vstr))]

/-- The fallback analysis dict of `_analyze_query_node` (lines 192-198). -/
def fallbackAnalysisVal : Val :=
  .obj [("intent", .vstr "unknown"),
        ("complexity", .vstr "moderate"),
        ("suggested_agents", .arr [.vstr "research_agent"])]

/-- `_initialize_node` (lines 150-168). -/
def initializeNode (env : OEnv) (st : WState) : WState :=
  { st with
    currentStep := "initialize",
    agentResults := [],
    metadata := [("start_time", .vstr env.nowStr),
                 ("workflow_id", .vstr env.workflowId),
                 ("version", .vstr "1.0.0")],
    messages := st.messages ++ ["You are a multi-agent AI system orchestrator. Coordinate agents to provide comprehensive responses."] }

/-- `_analyze_query_node` (lines 170-203). -/
def analyzeNode (env : OEnv) (st : WState) : WState :=
  let st := { st with currentStep := "analyze_query" }
  match env.analyzeRaises with
  | some e => { st with error := some ("Query analysis error: " ++ e) }
  | none =>
    if env.agents.contains "decision_agent" then
      { st with
        metadata := setField "query_analysis" (analysisToVal (analyzeQuery st.query)) st.metadata,
        messages := st.messages ++ ["Query analysis"] }
    else
      { st with metadata := setField "query_analysis" fallbackAnalysisVal st.metadata }

def errorOutcome (e : String) : Val :=
  .obj [("error", .vstr e), ("type", .vstr "error")]

/-- `_execute_agents_node` (lines 205-257).  Tasks are created only for the
three dispatchable handler names, `agent_names` collects every suggested
name registered in `self.agents`, and the gathered results are paired with
`agent_names` positionally, exactly as in the source.  One `wait_for`
deadline bounds the whole gather: `globalTimeout` raises `TimeoutError`
before anything is recorded. -/
def executeAgentsNode (env : OEnv) (st : WState) : WState :=
  let st := { st with currentStep := "execute_agents" }
  let qa := match lookupField "query_analysis" st.metadata with
            | some v => v
            | none => Val.obj []
  let suggested := match qa.get "suggested_agents" with
                   | some (Val.arr l) => l.filterMap (fun v =>
                       match v with
                       | Val.vstr s => some s
                       | _ => none)
                   | _ => ["research_agent"]
  let agentNames := suggested.filter (fun n => env.agents.contains n)
  let taskNames := agentNames.filter (fun n =>
    n = "news_agent" ∨ n = "research_agent" ∨ n = "sentiment_agent")
  if taskNames.isEmpty then
    { st with error := some "No agents available for execution" }
  else if env.globalTimeout then
    { st with error := some "Agent execution timeout after 60.0 seconds" }
  else
    let results := taskNames.map env.runs
    let recorded := (agentNames.zip results).foldl
      (fun acc p =>
        setField p.1
          (match p.2 with
           | .ok v => v
           | .error e => errorOutcome e) acc)
      st.agentResults
    { st with agentResults := recorded, messages := st.messages ++ ["Executed agents"] }

/-- `_combine_results_node` (lines 259-302). -/
def combineNode (env : OEnv) (st : WState) : WState :=
  let st := { st with currentStep := "combine_results" }
  if env.agents.contains "summarizer_agent" && !st.agentResults.isEmpty then
    let filtered := st.agentResults.filter (fun p => !truthyOpt (p.2.get "error"))
    if !filtered.isEmpty then
      match env.summarize st.query filtered with
      | .ok v => { st with finalResult := some v,
                           messages := st.messages ++ ["Results combined successfully"] }
      | .error e => { st with error := some ("Result combination error: " ++ e) }
    else
      { st with error := some "No valid agent results to combine" }
  else
    match st.agentResults with
    | [] => { st with error := some "No agent results available" }
    | (_, first) :: _ =>
      if !truthyOpt (first.get "error") then
        { st with finalResult := some first }
      else
        { st with error := some "All agent results contain errors" }

/-- `_format_response_node` (lines 304-331). -/
def formatNode (env : OEnv) (st : WState) : WState :=
  let st := { st with currentStep := "format_response" }
  match st.finalResult with
  | some fr =>
    if env.agents.contains "frontend_agent" && fr.truthy then
      match env.fmt fr st.query with
      | .ok f => { st with finalResult := some (fr.setKey "formatted" f),
                           messages := st.messages ++ ["Response formatted for frontend"] }
      | .error e => { st with error := some ("Response formatting error: " ++ e) }
    else st
  | none => st

/-- `_finalize_node` (lines 333-349). -/
def finalizeNode (env : OEnv) (st : WState) : WState :=
  { st with
    currentStep := "finalize",
    metadata := setField "status" (.vstr "completed")
                  (setField "end_time" (.vstr env.nowStr) st.metadata),
    messages := st.messages ++ ["Workflow completed successfully"] }

/-- `state.get("error", default)` where the `error` key is always present:
Python returns the stored value, which is `None` when no error was set. -/
def errorVal (st : WState) : Val :=
  match st.error with
  | some e => .vstr e
  | none => .vnone

/-- `_error_handling_node` (lines 351-381). -/
def errorHandlingNode (env : OEnv) (st : WState) : WState :=
  let st := { st with currentStep := "error_handling" }
  let md := setField "error_details" (errorVal st)
    (setField "status" (.vstr "error")
      (setField "end_time" (.vstr env.nowStr) st.metadata))
  let st := { st with metadata := md }
  let st :=
    if truthyOpt st.finalResult then st
    else
      { st with finalResult := some (Val.obj
          [("type", .vstr "error"), ("error", errorVal st), ("timestamp", .vstr env.nowStr)]) }
  { st with messages := st.messages ++ ["Workflow error"] }

inductive WNode where
  | initializeN | analyzeQ | executeA | combineR | formatR | finalizeN | errorH
deriving DecidableEq

def runNode (env : OEnv) : WNode → WState → WState
  | .initializeN => initializeNode env
  | .analyzeQ => analyzeNode env
  | .executeA => executeAgentsNode env
  | .combineR => combineNode env
  | .formatR => formatNode env
  | .finalizeN => finalizeNode env
  | .errorH => errorHandlingNode env

/-- Position of a node in the declared forward order; the error terminal
sits after all of them. -/
def stepIdx : WNode → Nat
  | .initializeN => 0
  | .analyzeQ => 1
  | .executeA => 2
  | .combineR => 3
  | .formatR => 4
  | .finalizeN => 5
  | .errorH => 6

/-- One legal transition of the claimed forward order: the target is either
the error terminal or the next node in the declared sequence. -/
def stepOk (a b : WNode) : Prop := b = WNode.errorH ∨ stepIdx b = stepIdx a + 1

def seqSucc : WNode → WNode
  | .initializeN => .analyzeQ
  | .analyzeQ => .executeA
  | .executeA => .combineR
  | .combineR => .formatR
  | .formatR => .finalizeN
  | .finalizeN => .finalizeN
  | .errorH => .errorH

/-- The routing of the compiled graph: the conditional edges registered for
each non-terminal node branch on `_should_continue` (error goes to the
error-handling terminal, otherwise the next node in sequence); `finalize`
and `error_handling` lead to `END`. -/
def nextNode : WNode → WState → Option WNode
  | .finalizeN, _ => none
  | .errorH, _ => none
  | n, st => some (if errTruthy st then .errorH else seqSucc n)

/-- Run the graph from a node, returning the final state and the list of
nodes visited after the starting one.  The graph has 7 nodes and no cycle,
so fuel 7 always suffices. -/
def runFrom (env : OEnv) : Nat → WNode → WState → WState × List WNode
  | 0, _, st => (st, [])
  | fuel + 1, n, st =>
    let st1 := runNode env n st
    match nextNode n st1 with
    | none => (st1, [])
    | some n2 =>
      let r := runFrom env fuel n2 st1
      (r.1, n2 :: r.2)

/-- The initial state built by `execute_workflow` (lines 400-409). -/
def initState (q uid : String) : WState :=
  { query := q, userId := uid, currentStep := "", agentResults := [],
    finalResult := none, error := none, metadata := [], messages := [] }

/-- One `ainvoke` of the compiled graph: final state plus the full visit
trace (entry point included). -/
def runWorkflow (env : OEnv) (q uid : String) : WState × List WNode :=
  let r := runFrom env 7 WNode.initializeN (initState q uid)
  (r.1, WNode.initializeN :: r.2)

def noAgentsErrVal (env : OEnv) : Val :=
  .obj [("type", .vstr "error"),
        ("error", .vstr "No agents were able to process the query"),
        ("timestamp", .vstr env.nowStr)]

/-- `_fallback_orchestration` (lines 445-506): research then news
sequentially, first non-error result wins, error payload otherwise. -/
def fallbackOrchestration (env : OEnv) (q uid : String) : List (String × Val) :=
  match env.fallbackRaises with
  | some e =>
    [("query", .vstr q), ("user_id", .vstr uid),
     ("result", .obj [("type", .vstr "error"),
                      ("error", .vstr ("Fallback orchestration failed: " ++ e)),
                      ("timestamp", .vstr env.nowStr)]),
     ("metadata", .obj [("status", .vstr "error"), ("error_details", .vstr e)]),
     ("messages", .arr []), ("workflow_id", .vnone), ("status", .vstr "error")]
  | none =>
    let tryAgent (n : String) : List (String × Val) :=
      if env.agents.contains n then
        [(n, match env.runs n with
             | .ok v => v
             | .error e => Val.obj [("error", .vstr e)])]
      else []
    let results := tryAgent "research_agent" ++ tryAgent "news_agent"
    let found := results.find? (fun p => !truthyOpt (p.2.get "error"))
    let finalR := match found with
      | some p => if p.2.truthy then p.2 else noAgentsErrVal env
      | none => noAgentsErrVal env
    [("query", .vstr q), ("user_id", .vstr uid), ("result", finalR),
     ("metadata", .obj [("status", .vstr "completed"), ("fallback", .vbool true)]),
     ("messages", .arr [.vstr "Fallback orchestration used"]),
     ("workflow_id", .vstr env.workflowId), ("status", .vstr "completed")]

/-- `execute_workflow` (lines 394-443). -/
def executeWorkflow (env : OEnv) (q uid : String) : List (String × Val) :=
  if !env.langgraphAvailable then fallbackOrchestration env q uid
  else
    match env.ainvokeRaises with
    | some e =>
      [("query", .vstr q), ("user_id", .vstr uid),
       ("result", .obj [("type", .vstr "error"),
                        ("error", .vstr ("Workflow execution failed: " ++ e)),
                        ("timestamp", .vstr env.nowStr)]),
       ("metadata", .obj [("status", .vstr "error"), ("error_details", .vstr e)]),
       ("messages", .arr []), ("workflow_id", .vnone), ("status", .vstr "error")]
    | none =>
      let stF := (runWorkflow env q uid).1
      [("query", .vstr q), ("user_id", .vstr uid),
       ("result", match stF.finalResult with
                  | some v => v
                  | none => Val.vnone),
       ("metadata", .obj stF.metadata),
       ("messages", .arr (stF.messages.map Val.vstr)),
       ("workflow_id", match lookupField "workflow_id" stF.metadata with
                       | some v => v
                       | none => Val.vnone),
       ("status", match lookupField "status" stF.metadata with
                  | some v => v
                  | none => .vstr "unknown")]

/-! ## Request pipeline (`main.py`)

`process_query` (lines 151-360) with the decision router embedded above and
the external handlers supplied as environment functions.  The parallel
(`asyncio.gather` with `return_exceptions=True`, no deadline) and sequential
(per-agent `try`/`except`) execution branches record identical outcomes —
raised tasks are skipped with a log line, returned results are validated —
so a single execution function models both. -/

/-- `main._validate_agent_result` (main.py lines 31-44).  The news agent
produces its `articles` as a list and the research agent its `summary` as a
string; other payload shapes at those keys fail validation. -/
def validateAgentResult (agentName : String) (r : Val) : Bool :=
  if !r.truthy || truthyOpt (r.get "error") then false
  else if agentName = "news_agent" then
    match r.get "articles" with
    | some (Val.arr l) => !l.isEmpty
    | _ => false
  else if agentName = "research_agent" then
    match r.get "summary" with
    | some (Val.vstr s) =>
      s != "" && !(strContains s "No relevant documents found") && s.length > 50
    | _ => false
  else if agentName = "sentiment_agent" then
    match r.get "sentiment" with
    | some Val.vnone => false
    | some _ => true
    | none => false
  else true

/-- The keyword list of the `skip cache for sentiment queries` test
(main.py line 172). -/
def cacheSkipKeywords : List String :=
  ["sentiment", "emotion", "feeling", "mood", "opinion", "attitude", "analyze"]

def skipsCache (q : String) : Bool :=
  cacheSkipKeywords.any (fun k => strContains (lowerStr q) k)

/-- Environment of one request: results of the external handler calls and
the clock.  The orchestrator environment is carried for the
`use_orchestrator` branch. -/
structure MainEnv where
  newsRun : String → Except String Val
  researchRun : String → Except String Val
  sentimentRun : String → Except String Val
  summarize : String → List (String × Val) → Except String Val
  learn : String → Except String Val
  fmt : Val → String → Except String Val
  now : Int
  nowStr : String
  oenv : OEnv

/-- The dispatch `if agent_name == "news_agent": ... elif ...` (lines
216-221 and 248-255); unknown names create no task / `continue`. -/
def runAgentTask (env : MainEnv) (q n : String) : Option (Except String Val) :=
  if n = "news_agent" then some (env.newsRun q)
  else if n = "research_agent" then some (env.researchRun q)
  else if n = "sentiment_agent" then some (env.sentimentRun q)
  else none

/-- The execution loop over the plan (lines 211-267): collect
`agents_used` and `agent_results` from the validated successes. -/
def runPlan (env : MainEnv) (q : String) (plan : List String) :
    List String × List (String × Val) :=
  plan.foldl
    (fun acc n =>
      match runAgentTask env q n with
      | some (.ok v) =>
        if validateAgentResult n v then (acc.1 ++ [n], acc.2 ++ [(n, v)]) else acc
      | some (.error _) => acc
      | none => acc)
    ([], [])

/-- The result-combination step (lines 269-298): a sentiment-agent outcome
tagged `sentiment_analysis` is returned directly; otherwise the summarizer
runs (second component: whether `summarizer_agent` was used), falling back
to the first collected result if it raises. -/
def combineMainResults (env : MainEnv) (q : String)
    (agentResults : List (String × Val)) : Val × Bool :=
  match agentResults with
  | [] =>
    (Val.obj [("type", .vstr "error"),
              ("error", .vstr "No agents were able to process the query")], false)
  | (_, r0) :: _ =>
    let sentimentFound := agentResults.find? (fun p =>
      p.1 = "sentiment_agent" &&
      (match p.2.get "type" with
       | some (Val.vstr t) => t = "sentiment_analysis"
       | _ => false))
    match sentimentFound with
    | some p => (p.2, false)
    | none =>
      match env.summarize q agentResults with
      | .ok v => (v, true)
      | .error _ => (r0, false)

/-- The pre-image of `_generate_cache_key(query, "", QUERY_RESULT)`
(caching_agent.py lines 86-90): the MD5 hash of this string is the cache
key; MD5 is treated as injective here, so the pre-image itself serves as
the key. -/
def queryCacheKey (q : String) : String := q ++ ":" ++ ":" ++ "query_result"

/-- The body of `process_query` after a cache miss (or skipped cache check):
lines 184-357.  Returns the endpoint response and the updated cache. -/
def processQueryMain (env : MainEnv) (cfg : CacheConfig) (cache1 : CacheState)
    (query uid : String) (useOrchestrator : Bool) : List (String × Val) × CacheState :=
  if useOrchestrator then
    let resp := executeWorkflow env.oenv query uid
    let inner := match lookupField "result" resp with
                 | some v => v
                 | none => Val.obj []
    (resp, cacheSet cfg env.now (queryCacheKey query) inner "query_result" inner.size none cache1)
  else
    let plan0 := coordinateAgents query
    let execPlan :=
      if plan0.analysis.intent = QueryIntent.sentiment then ["sentiment_agent"]
      else plan0.executionPlan
    let ran := runPlan env query execPlan
    let agentResults := ran.2
    let comb := combineMainResults env query agentResults
    let agentsUsed1 := ran.1 ++ (if comb.2 then ["summarizer_agent"] else [])
    let learned := match env.learn query with
      | .ok v => truthyOpt (v.get "learning_successful")
      | .error _ => false
    let agentsUsed2 := agentsUsed1 ++ (if learned then ["learning_agent"] else [])
    let fmtRes := env.fmt comb.1 query
    let agentsUsed3 := agentsUsed2 ++ (match fmtRes with
      | .ok _ => ["frontend_agent"]
      | .error _ => [])
    let result1 := match fmtRes with
      | .ok f => comb.1.setKey "formatted" f
      | .error _ => comb.1
    let fb :=
      if agentResults.isEmpty then
        match env.researchRun query with
        | .ok v =>
          if v.truthy then (v, agentsUsed3 ++ ["research_agent"])
          else
            (Val.obj [("type", .vstr "placeholder"),
                      ("data", .vstr ("I understand you are asking about " ++ query))],
             agentsUsed3)
        | .error _ =>
          (Val.obj [("type", .vstr "error"),
                    ("error", .vstr "Unable to process your query at this time. Please try again or rephrase your question.")],
           agentsUsed3)
      else (result1, agentsUsed3)
    let cache2 := cacheSet cfg env.now (queryCacheKey query) fb.1 "query_result" fb.1.size none cache1
    ([("query", .vstr query),
      ("agents_used", .arr (fb.2.map Val.vstr)),
      ("processing_time", .vnat 0),
      ("timestamp", .vstr env.nowStr),
      ("result", fb.1),
      ("cached", .vbool false)], cache2)

/-- `process_query` (main.py lines 151-360).  An empty query raises
`HTTPException(400)`; the cached-result early return requires the hit to be
truthy (`if cached_result:`), and the cache check is skipped entirely for
queries containing a sentiment keyword. -/
def processQuery (env : MainEnv) (cfg : CacheConfig) (cache : CacheState)
    (query uid : String) (useOrchestrator : Bool) :
    Except String (List (String × Val) × CacheState) :=
  if query = "" then .error "Query is required"
  else
    let key := queryCacheKey query
    let got := if skipsCache query then (none, cache) else cacheGet env.now key cache
    match got.1 with
    | some v =>
      if v.truthy then
        .ok ([("query", .vstr query),
              ("agents_used", .arr [.vstr "caching_agent"]),
              ("processing_time", .vnat 0),
              ("timestamp", .vstr env.nowStr),
              ("result", v),
              ("cached", .vbool true)], got.2)
      else .ok (processQueryMain env cfg got.2 query uid useOrchestrator)
    | none => .ok (processQueryMain env cfg got.2 query uid useOrchestrator)

/-- Models `sentiment_agent.analyze_sentiment` (sentiment_agent.py lines
46-95) at the wrapper level: the inner rule-based/OpenAI scoring (float
arithmetic) is environment-supplied as `inner` (sentiment label and
confidence value); the claims depend only on the tagged shape of each
return.  The `scores` and `processing_time` fields (floats) are omitted. -/
def analyzeSentiment (text : String) (inner : Except String (String × Val))
    (nowStr : String) : Val :=
  if trimStr text = "" then
    Val.obj [("error", .vstr "No text provided for analysis"),
             ("sentiment", .vstr "neutral"), ("confidence", .vnat 0)]
  else
    match inner with
    | .ok p =>
      Val.obj [("type", .vstr "sentiment_analysis"),
               ("text", .vstr (if text.length > 200 then text.take 200 ++ "..." else text)),
               ("sentiment", .vstr p.1),
               ("confidence", p.2),
               ("method_used", .vstr "hybrid"),
               ("analyzed_at", .vstr nowStr)]
    | .error e =>
      Val.obj [("error", .vstr ("Sentiment analysis failed: " ++ e)),
               ("sentiment", .vstr "neutral"), ("confidence", .vnat 0),
               ("method_used", .vstr "hybrid")]

/-! ## Concrete instances used by witnesses and counterexamples -/

/-- The production cache configuration (`main.py` lines 57-64). -/
def cfgProd : CacheConfig := ⟨100, 3600⟩

/-- The agent registry passed to the orchestrator (`main.py` lines 77-85). -/
def prodAgents : List String :=
  ["news_agent", "research_agent", "sentiment_agent", "summarizer_agent",
   "decision_agent", "frontend_agent", "documentation_agent"]

/-- A baseline orchestrator environment; individual scenarios override
fields. -/
def baseOEnv : OEnv :=
  { agents := prodAgents, langgraphAvailable := true, analyzeRaises := none,
    runs := fun _ => .error "unused", globalTimeout := false,
    summarize := fun _ rs => .ok (Val.obj [("type", .vstr "summary"), ("n", .vnat rs.length)]),
    fmt := fun _ _ => .error "off", nowStr := "T0", workflowId := "wf1",
    ainvokeRaises := none, fallbackRaises := none }

/-- A validated sentiment payload as produced by the sentiment handler. -/
def sentOkVal : Val :=
  Val.obj [("type", .vstr "sentiment_analysis"), ("sentiment", .vstr "positive")]

/-- C2 scenario: of the three capabilities, the news handler always raises,
the research handler exceeds the (global) deadline, and the sentiment
handler succeeds and validates.  Since the single `asyncio.wait_for` waits
on the gather of all three, the slow handler makes the whole gather time
out. -/
def envC2 : OEnv :=
  { baseOEnv with
    runs := fun n =>
      if n = "news_agent" then .error "boom"
      else if n = "sentiment_agent" then .ok sentOkVal
      else .ok (Val.obj [("summary", .vstr "slow")]),
    globalTimeout := true }

/-- C2 amended scenario: news raises, research completes with an
error-marked payload, sentiment succeeds — all within the deadline. -/
def envC2b : OEnv :=
  { baseOEnv with
    runs := fun n =>
      if n = "news_agent" then .error "boom"
      else if n = "sentiment_agent" then .ok sentOkVal
      else .ok (Val.obj [("error", .vstr "no results")]),
    globalTimeout := false }

/-- A workflow state as it stands when the execute node runs: the analysis
suggested all three capabilities. -/
def stC2 : WState :=
  { query := "q", userId := "u", currentStep := "analyze_query", agentResults := [],
    finalResult := none, error := none,
    metadata := [("start_time", .vstr "T0"), ("workflow_id", .vstr "wf1"),
      ("query_analysis", Val.obj [("intent", .vstr "news"), ("complexity", .vstr "simple"),
        ("suggested_agents", Val.arr [.vstr "news_agent", .vstr "research_agent",
          .vstr "sentiment_agent"])])],
    messages := [] }

/-- An environment whose execute step fails (no agents registered), driving
the run into the error terminal. -/
def envErr : OEnv := { baseOEnv with agents := ["decision_agent"] }

/-- A state in which the execute handler has recorded an error. -/
def stErrW : WState :=
  { initState "q" "u" with error := some "No agents available for execution" }

/-- Fallback-mode environment (graph library unavailable). -/
def envFb : OEnv :=
  { baseOEnv with
    langgraphAvailable := false,
    runs := fun n =>
      if n = "research_agent" then .ok (Val.obj [("summary", .vstr "x")])
      else .error "down" }

/-- A research summary long enough to pass `_validate_agent_result`. -/
def longSummary : String :=
  "aaaaaaaaaaaaaaaaaaaaaaaaaaaaaaaaaaaaaaaaaaaaaaaaaaaaaaaaaaa"

/-- Request environment used by the `process_query` scenarios: research
succeeds with a valid summary, sentiment succeeds, news is down, the
summarizer works, learning and frontend formatting are unavailable. -/
def envMain : MainEnv :=
  { newsRun := fun _ => .error "down",
    researchRun := fun _ => .ok (Val.obj [("summary", .vstr longSummary)]),
    sentimentRun := fun q => .ok (analyzeSentiment q (.ok ("neutral", .vnat 0)) "T0"),
    summarize := fun _ rs => .ok (Val.obj [("type", .vstr "summary"), ("n", .vnat rs.length)]),
    learn := fun _ => .error "off",
    fmt := fun _ _ => .error "off",
    now := 100, nowStr := "T0", oenv := baseOEnv }

def exceptResp (r : Except String (List (String × Val) × CacheState)) : List (String × Val) :=
  match r with
  | .ok p => p.1
  | .error _ => []

def exceptCache (r : Except String (List (String × Val) × CacheState)) : CacheState :=
  match r with
  | .ok p => p.2
  | .error _ => emptyCache

/-- First and second identical `process_query` calls on a query containing
a sentiment keyword (the cache check is skipped for those). -/
def c5run1 : Except String (List (String × Val) × CacheState) :=
  processQuery envMain cfgProd emptyCache "sentiment" "u" false

def c5run2 : Except String (List (String × Val) × CacheState) :=
  processQuery envMain cfgProd (exceptCache c5run1) "sentiment" "u" false

/-- First call of the witness scenario on a plain query. -/
def c5hello1 : Except String (List (String × Val) × CacheState) :=
  processQuery envMain cfgProd emptyCache "hello" "u" false

def c5hello1Res : Val :=
  match lookupField "result" (exceptResp c5hello1) with
  | some v => v
  | none => Val.vnone

/-! ## Cache lemmas -/

theorem sizeSum_nil : sizeSum [] = 0 := rfl

theorem sizeSum_cons (e : CacheEntry) (l : List CacheEntry) :
    sizeSum (e :: l) = e.sizeBytes + sizeSum l := rfl

theorem sizeSum_filter_le (p : CacheEntry → Bool) (l : List CacheEntry) :
    sizeSum (l.filter p) ≤ sizeSum l := by
  induction l with
  | nil => simp [sizeSum]
  | cons x xs ih =>
    by_cases h : p x <;> simp [List.filter_cons, h, sizeSum_cons] <;> omega

theorem insertLRU_perm (e : CacheEntry) (l : List CacheEntry) :
    (insertLRU e l).Perm (e :: l) := by
  induction l with
  | nil => exact List.Perm.refl _
  | cons x xs ih =>
    rw [insertLRU]
    split
    · exact List.Perm.refl _
    · exact (ih.cons x).trans (List.Perm.swap e x xs)

theorem sortLRU_perm (l : List CacheEntry) : (sortLRU l).Perm l := by
  induction l with
  | nil => exact List.Perm.refl _
  | cons x xs ih => exact (insertLRU_perm x (sortLRU xs)).trans (ih.cons x)

theorem evictLoop_sublist (req : Nat) (f : Nat) (l : List CacheEntry) :
    (evictLoop req f l).Sublist l := by
  induction l generalizing f with
  | nil => simp [evictLoop]
  | cons e rest ih =>
    rw [evictLoop]
    split
    · exact List.nil_sublist _
    · exact (ih (f + e.sizeBytes)).cons₂ e

/-- The eviction loop either frees the required space or consumes the whole
snapshot. -/
theorem evictLoop_spec (req : Nat) (l : List CacheEntry) (f : Nat) :
    req ≤ f + sizeSum (evictLoop req f l) ∨ evictLoop req f l = l := by
  induction l generalizing f with
  | nil => right; rfl
  | cons e rest ih =>
    rw [evictLoop]
    split
    · left; omega
    · rcases ih (f + e.sizeBytes) with h | h
      · left; rw [sizeSum_cons]; omega
      · right; rw [h]

/-- Removing the single entry with a given key splits the size sum
(requires key uniqueness). -/
theorem sizeSum_remove_key (d : CacheEntry) (l : List CacheEntry)
    (hd : d ∈ l) (hl : (l.map CacheEntry.key).Nodup) :
    sizeSum (l.filter (fun e => ¬ d.key = e.key)) + d.sizeBytes = sizeSum l := by
  induction l with
  | nil => cases hd
  | cons x xs ih =>
    rcases List.mem_cons.mp hd with rfl | hdxs
    · have hnx : d.key ∉ xs.map CacheEntry.key := (List.nodup_cons.mp hl).1
      have hfix : xs.filter (fun e => ¬ d.key = e.key) = xs := by
        apply List.filter_eq_self.mpr
        intro e he
        simp only [decide_eq_true_eq]
        intro hcontra
        exact hnx (hcontra ▸ List.mem_map_of_mem CacheEntry.key he)
      rw [List.filter_cons, if_neg (by simp), hfix, sizeSum_cons]
      omega
    · have hne : d.key ≠ x.key := by
        intro hcontra
        exact (List.nodup_cons.mp hl).1
          (hcontra ▸ List.mem_map_of_mem CacheEntry.key hdxs)
      have hih := ih hdxs (List.nodup_cons.mp hl).2
      rw [List.filter_cons, if_pos (by simpa using hne), sizeSum_cons, sizeSum_cons]
      omega

/-- Deleting a set of entries with pairwise distinct keys, all present in
`l`, removes exactly their sizes from the total. -/
theorem sizeSum_filter_split (ds : List CacheEntry) (l : List CacheEntry)
    (hds : (ds.map CacheEntry.key).Nodup) (hl : (l.map CacheEntry.key).Nodup)
    (hmem : ∀ d ∈ ds, d ∈ l) :
    sizeSum (l.filter (fun e => ¬ ds.any (fun d => d.key = e.key))) + sizeSum ds = sizeSum l := by
  induction ds generalizing l with
  | nil => simp [sizeSum]
  | cons d ds ih =>
    have hsplit : l.filter (fun e => ¬ (d :: ds).any (fun d => d.key = e.key)) =
        (l.filter (fun e => ¬ d.key = e.key)).filter
          (fun e => ¬ ds.any (fun d => d.key = e.key)) := by
      rw [List.filter_filter]
      apply List.filter_congr
      intro e _
      cases hp : decide (d.key = e.key) <;> cases hq : ds.any (fun d => d.key = e.key) <;>
        simp_all
    have hremove := sizeSum_remove_key d l (hmem d (List.mem_cons_self d ds)) hl
    rw [hsplit, sizeSum_cons]
    set l1 := l.filter (fun e => ¬ d.key = e.key) with hl1
    have hl1nodup : (l1.map CacheEntry.key).Nodup :=
      ((List.filter_sublist l).map CacheEntry.key).nodup hl
    have hmem1 : ∀ d2 ∈ ds, d2 ∈ l1 := by
      intro d2 hd2
      have hd2l : d2 ∈ l := hmem d2 (List.mem_cons_of_mem d hd2)
      have hne : d.key ≠ d2.key := by
        intro hcontra
        exact (List.nodup_cons.mp hds).1
          (hcontra ▸ List.mem_map_of_mem CacheEntry.key hd2)
      rw [hl1, List.mem_filter]
      exact ⟨hd2l, by simpa using hne⟩
    have hih := ih l1 (List.nodup_cons.mp hds).2 hl1nodup hmem1
    omega

/-- After eviction, either the required space was freed or the cache is
empty. -/
theorem evict_total (req : Nat) (s : CacheState) (h : KeysNodup s) :
    totalSize (evictEntries req s) + req ≤ totalSize s ∨
      totalSize (evictEntries req s) = 0 := by
  have hperm : (sortLRU s.entries).Perm s.entries := sortLRU_perm s.entries
  have hkeysperm : ((sortLRU s.entries).map CacheEntry.key).Perm
      (s.entries.map CacheEntry.key) := hperm.map _
  have hsortnodup : ((sortLRU s.entries).map CacheEntry.key).Nodup :=
    (hkeysperm.nodup_iff).mpr h
  set ds := evictLoop req 0 (sortLRU s.entries) with hds
  have hsub : ds.Sublist (sortLRU s.entries) := evictLoop_sublist req 0 _
  have hdsnodup : (ds.map CacheEntry.key).Nodup := ((hsub.map _).nodup hsortnodup)
  have hmem : ∀ d ∈ ds, d ∈ s.entries := fun d hd => hperm.mem_iff.mp (hsub.mem hd)
  have hsplit := sizeSum_filter_split ds s.entries hdsnodup h hmem
  have hev : totalSize (evictEntries req s) = sizeSum
      (s.entries.filter (fun e => ¬ ds.any (fun d => d.key = e.key))) := rfl
  have htot : totalSize s = sizeSum s.entries := rfl
  rcases evictLoop_spec req (sortLRU s.entries) 0 with hfree | hall
  · rw [← hds] at hfree
    left
    omega
  · right
    rw [← hds] at hall
    have hsum : sizeSum ds = sizeSum s.entries := by
      rw [hall]
      exact hperm.map CacheEntry.sizeBytes |>.sum_eq
    omega

theorem sizeSum_insertEntry_le (e : CacheEntry) (l : List CacheEntry) :
    sizeSum (insertEntry e l) ≤ e.sizeBytes + sizeSum l := by
  induction l with
  | nil => simp [insertEntry, sizeSum_cons, sizeSum_nil]
  | cons x xs ih =>
    rw [insertEntry]
    split
    · simp only [sizeSum_cons]; omega
    · simp only [sizeSum_cons]; omega

/-- `set` keeps the total within the byte budget, provided the inserted
value itself fits in the budget. -/
theorem cacheSet_budget (cfg : CacheConfig) (now : Int) (k : String) (v : Val)
    (ct : String) (sz : Nat) (ttl : Option Int) (s : CacheState)
    (hs : totalSize s ≤ budget cfg) (hk : KeysNodup s) (hsz : sz ≤ budget cfg) :
    totalSize (cacheSet cfg now k v ct sz ttl s) ≤ budget cfg := by
  have hins : totalSize (cacheSet cfg now k v ct sz ttl s) ≤
      sz + totalSize (checkAndEvict cfg sz s) :=
    sizeSum_insertEntry_le _ _
  rw [checkAndEvict] at hins
  split at hins
  · rcases evict_total sz s hk with h | h
    · omega
    · omega
  · omega

theorem touchEntry_keys (now : Int) (k : String) (l : List CacheEntry) :
    (touchEntry now k l).map CacheEntry.key = l.map CacheEntry.key := by
  induction l with
  | nil => rfl
  | cons x xs ih =>
    simp only [touchEntry, List.map_cons] at ih ⊢
    rw [ih]
    congr 1
    split <;> rfl

theorem touchEntry_sizes (now : Int) (k : String) (l : List CacheEntry) :
    sizeSum (touchEntry now k l) = sizeSum l := by
  induction l with
  | nil => rfl
  | cons x xs ih =>
    simp only [touchEntry, List.map_cons] at ih ⊢
    rw [sizeSum_cons, sizeSum_cons, ih]
    congr 1
    split <;> rfl

theorem insertEntry_key_mem (e : CacheEntry) (l : List CacheEntry) (k' : String)
    (h : k' ∈ (insertEntry e l).map CacheEntry.key) :
    k' = e.key ∨ k' ∈ l.map CacheEntry.key := by
  induction l with
  | nil => left; simpa [insertEntry] using h
  | cons x xs ih =>
    rw [insertEntry] at h
    split at h
    · rcases List.mem_cons.mp h with rfl | hx
      · left; rfl
      · right; exact List.mem_cons_of_mem _ hx
    · rcases List.mem_cons.mp h with rfl | hx
      · right; exact List.mem_cons_self _ _
      · rcases ih hx with h1 | h1
        · left; exact h1
        · right; exact List.mem_cons_of_mem _ h1

theorem insertEntry_nodup (e : CacheEntry) (l : List CacheEntry)
    (h : (l.map CacheEntry.key).Nodup) : ((insertEntry e l).map CacheEntry.key).Nodup := by
  induction l with
  | nil => simp [insertEntry]
  | cons x xs ih =>
    rw [insertEntry]
    split
    · rename_i hx
      rw [List.map_cons, List.nodup_cons]
      refine ⟨?_, (List.nodup_cons.mp h).2⟩
      rw [← hx]
      exact (List.nodup_cons.mp h).1
    · rename_i hx
      rw [List.map_cons, List.nodup_cons]
      refine ⟨?_, ih (List.nodup_cons.mp h).2⟩
      intro hmem
      rcases insertEntry_key_mem e xs x.key hmem with h1 | h1
      · exact hx h1
      · exact (List.nodup_cons.mp h).1 h1

theorem insertEntry_mem (e : CacheEntry) (l : List CacheEntry) (x : CacheEntry)
    (h : x ∈ insertEntry e l) : x = e ∨ x ∈ l := by
  induction l with
  | nil => left; simpa [insertEntry] using h
  | cons y ys ih =>
    rw [insertEntry] at h
    split at h
    · rcases List.mem_cons.mp h with rfl | hx
      · left; rfl
      · right; exact List.mem_cons_of_mem _ hx
    · rcases List.mem_cons.mp h with rfl | hx
      · right; exact List.mem_cons_self _ _
      · rcases ih hx with h1 | h1
        · left; exact h1
        · right; exact List.mem_cons_of_mem _ h1

theorem lookupEntry_insertEntry_self (e : CacheEntry) (l : List CacheEntry) :
    lookupEntry e.key (insertEntry e l) = some e := by
  induction l with
  | nil => simp [insertEntry, lookupEntry]
  | cons x xs ih =>
    rw [insertEntry]
    split
    · simp [lookupEntry]
    · rename_i hx
      rw [lookupEntry, if_neg hx]
      exact ih

theorem lookupEntry_mem (k : String) (l : List CacheEntry) (e : CacheEntry)
    (h : lookupEntry k l = some e) : e ∈ l ∧ e.key = k := by
  induction l with
  | nil => simp [lookupEntry] at h
  | cons x xs ih =>
    rw [lookupEntry] at h
    split at h
    · rename_i hx
      cases h
      exact ⟨List.mem_cons_self _ _, hx⟩
    · rcases ih h with ⟨h1, h2⟩
      exact ⟨List.mem_cons_of_mem _ h1, h2⟩

theorem lookupEntry_filter_del (k : String) (l : List CacheEntry) :
    lookupEntry k (l.filter (fun e => ¬ e.key = k)) = none := by
  induction l with
  | nil => rfl
  | cons x xs ih =>
    rw [List.filter_cons]
    split
    · rename_i hx
      rw [lookupEntry, if_neg (by simpa using hx)]
      exact ih
    · exact ih

theorem lookupEntry_touch (now : Int) (k : String) (l : List CacheEntry) :
    lookupEntry k (touchEntry now k l) =
      (lookupEntry k l).map
        (fun e => { e with lastAccessed := now, accessCount := e.accessCount + 1 }) := by
  induction l with
  | nil => rfl
  | cons x xs ih =>
    simp only [touchEntry, List.map_cons, lookupEntry] at ih ⊢
    by_cases hx : x.key = k
    · simp [hx]
    · simp [hx, ih]

theorem filter_nodup_keys (p : CacheEntry → Bool) (l : List CacheEntry)
    (h : (l.map CacheEntry.key).Nodup) : ((l.filter p).map CacheEntry.key).Nodup :=
  ((List.filter_sublist l).map CacheEntry.key).nodup h

/-- Every mutating or reading operation preserves key uniqueness. -/
theorem applyOp_nodup (cfg : CacheConfig) (s : CacheState) (op : CacheOp)
    (h : KeysNodup s) : KeysNodup (applyOp cfg s op) := by
  cases op with
  | set now k v sz ttl =>
    have h1 : KeysNodup (checkAndEvict cfg sz s) := by
      rw [checkAndEvict]
      split
      · exact filter_nodup_keys _ _ h
      · exact h
    exact insertEntry_nodup _ _ h1
  | get now k =>
    show KeysNodup (cacheGet now k s).2
    rw [cacheGet]
    rcases hl : lookupEntry k s.entries with _ | e
    · simpa [hl] using h
    · simp only [hl]
      split
      · exact filter_nodup_keys _ _ h
      · show ((touchEntry now k s.entries).map CacheEntry.key).Nodup
        rw [touchEntry_keys]
        exact h
  | del k => exact filter_nodup_keys _ _ h
  | sweep now => exact filter_nodup_keys _ _ h

/-- Every operation keeps the live total within the byte budget, provided
any inserted value itself fits in the budget. -/
theorem applyOp_budget (cfg : CacheConfig) (s : CacheState) (op : CacheOp)
    (hb : totalSize s ≤ budget cfg) (hk : KeysNodup s) (hop : opSizeOK cfg op) :
    totalSize (applyOp cfg s op) ≤ budget cfg := by
  cases op with
  | set now k v sz ttl => exact cacheSet_budget cfg now k v _ sz ttl s hb hk hop
  | get now k =>
    show totalSize (cacheGet now k s).2 ≤ budget cfg
    rw [cacheGet]
    rcases hl : lookupEntry k s.entries with _ | e
    · simpa [hl] using hb
    · simp only [hl]
      split
      · exact le_trans (sizeSum_filter_le _ _) hb
      · show sizeSum (touchEntry now k s.entries) ≤ budget cfg
        rw [touchEntry_sizes]
        exact hb
  | del k => exact le_trans (sizeSum_filter_le _ _) hb
  | sweep now => exact le_trans (sizeSum_filter_le _ _) hb

/-- Under a nonzero default TTL, every operation preserves the invariant
that live entries carry a truthy TTL. -/
theorem applyOp_ttl (cfg : CacheConfig) (s : CacheState) (op : CacheOp)
    (hd : cfg.defaultTtlSeconds ≠ 0) (h : TtlInv s) : TtlInv (applyOp cfg s op) := by
  cases op with
  | set now k v sz ttl =>
    intro e he
    rcases insertEntry_mem _ _ _ he with rfl | hmem
    · constructor
      · simp [mkSetEntry]
      · simp only [mkSetEntry, Option.some.injEq, ne_eq]
        intro hcontra
        rcases ttl with _ | t
        · exact hd hcontra
        · by_cases ht : t = 0
          · rw [pyOrTtl, if_pos ht] at hcontra; exact hd hcontra
          · rw [pyOrTtl, if_neg ht] at hcontra; exact ht hcontra
    · have hsub : e ∈ s.entries := by
        have : e ∈ (checkAndEvict cfg sz s).entries := hmem
        rw [checkAndEvict] at this
        revert this
        split
        · intro hthis
          exact (List.mem_filter.mp hthis).1
        · intro hthis
          exact hthis
      exact h e hsub
  | get now k =>
    intro e he
    revert he
    show e ∈ (cacheGet now k s).2.entries → _
    rw [cacheGet]
    rcases hl : lookupEntry k s.entries with _ | e0
    · intro he; exact h e he
    · simp only [hl]
      split
      · intro he
        exact h e (List.mem_filter.mp he).1
      · intro he
        rcases List.mem_map.mp he with ⟨e1, he1, hmap⟩
        have := h e1 he1
        revert hmap
        split <;> (intro hmap; rw [← hmap]; exact this)
  | del k =>
    intro e he
    exact h e (List.mem_filter.mp he).1
  | sweep now =>
    intro e he
    exact h e (List.mem_filter.mp he).1

/-- The budget and key-uniqueness invariants hold after any operation
sequence from the empty cache whose insertions fit the budget. -/
theorem runOps_inv (cfg : CacheConfig) (ops : List CacheOp) :
    ∀ s, totalSize s ≤ budget cfg → KeysNodup s → SizesFit cfg ops →
      totalSize (runOps cfg ops s) ≤ budget cfg ∧ KeysNodup (runOps cfg ops s) := by
  induction ops with
  | nil => exact fun s hb hk _ => ⟨hb, hk⟩
  | cons op rest ih =>
    intro s hb hk hfit
    have hop := hfit op (List.mem_cons_self _ _)
    have hrest : SizesFit cfg rest := fun o ho => hfit o (List.mem_cons_of_mem _ ho)
    exact ih (applyOp cfg s op) (applyOp_budget cfg s op hb hk hop)
      (applyOp_nodup cfg s op hk) hrest

/-- Under a nonzero default TTL, `TtlInv` holds after any operation sequence
from the empty cache. -/
theorem runOps_ttl (cfg : CacheConfig) (hd : cfg.defaultTtlSeconds ≠ 0) (ops : List CacheOp) :
    ∀ s, TtlInv s → TtlInv (runOps cfg ops s) := by
  induction ops with
  | nil => exact fun s h => h
  | cons op rest ih => exact fun s h => ih (applyOp cfg s op) (applyOp_ttl cfg s op hd h)

/-! ## Claim C1 -/

/-- C1, counterexample: the eviction loop only frees what is available and
`set` then inserts regardless, so a single `set` whose serialized size
exceeds the whole byte budget leaves the live total above the budget.
With `max_size_mb = 1` (budget 1048576 bytes), one `set` of a
1048577-byte value ends with total size 1048577 — the claimed invariant
fails after this mutating operation. -/
theorem c1_counterexample :
    budget ⟨1, 3600⟩ <
      totalSize (runOps ⟨1, 3600⟩
        [CacheOp.set 0 "k" (Val.vstr "x") 1048577 none] emptyCache) := by
  decide

/-- C1, amended: over every operation sequence from the empty cache in which
each `set` inserts a value whose serialized size is at most the byte budget
`max_size_mb * 1024 * 1024`, the sum of `size_bytes` over live entries
stays at most the budget after every mutating operation (set, delete,
eviction within set, sweep) — `set` evicts least-recently-used entries
before inserting whenever the insertion would exceed the budget. -/
theorem c1_cache_budget_invariant (cfg : CacheConfig) (ops : List CacheOp)
    (h : SizesFit cfg ops) :
    totalSize (runOps cfg ops emptyCache) ≤ budget cfg :=
  (runOps_inv cfg ops emptyCache (Nat.zero_le _) List.nodup_nil h).1

theorem c1_witness :
    SizesFit ⟨1, 3600⟩
        [CacheOp.set 0 "a" (Val.vstr "x") 5 none, CacheOp.set 1 "b" Val.vnone 7 (some 60),
         CacheOp.get 2 "a", CacheOp.del "b", CacheOp.sweep 100] ∧
      totalSize (runOps ⟨1, 3600⟩
        [CacheOp.set 0 "a" (Val.vstr "x") 5 none, CacheOp.set 1 "b" Val.vnone 7 (some 60),
         CacheOp.get 2 "a", CacheOp.del "b", CacheOp.sweep 100] emptyCache) ≤
        budget ⟨1, 3600⟩ := by
  have hfit : SizesFit ⟨1, 3600⟩
      [CacheOp.set 0 "a" (Val.vstr "x") 5 none, CacheOp.set 1 "b" Val.vnone 7 (some 60),
       CacheOp.get 2 "a", CacheOp.del "b", CacheOp.sweep 100] := by
    intro op hop
    fin_cases hop <;> simp [opSizeOK, budget]
  exact ⟨hfit, c1_cache_budget_invariant _ _ hfit⟩

/-! ## Claim C8 -/

/-- C8: `get` returns a miss when the entry is absent, and when the entry is
expired (`now` past `created_at + ttl`) it returns a miss and deletes the
entry from the live set; a non-expired entry is returned.  The hypothesis —
every live entry has a TTL that is neither `None` nor `0` — holds for every
state reachable through `set` under a nonzero default TTL
(`applyOp_ttl`/`runOps_ttl`); on such states the truthiness guard
`entry.ttl_seconds and ...` never masks the expiry check. -/
theorem c8_get_miss_on_expired (s : CacheState) (now : Int) (k : String)
    (hinv : TtlInv s) :
    (lookupEntry k s.entries = none → (cacheGet now k s).1 = none) ∧
    (∀ e, lookupEntry k s.entries = some e → isExpired now e = true →
       (cacheGet now k s).1 = none ∧ lookupEntry k (cacheGet now k s).2.entries = none) ∧
    (∀ e, lookupEntry k s.entries = some e → isExpired now e = false →
       (cacheGet now k s).1 = some e.value) := by
  refine ⟨?_, ?_, ?_⟩
  · intro h
    rw [cacheGet]
    simp [h]
  · intro e he hexp
    have hmem := lookupEntry_mem k s.entries e he
    have httl := hinv e hmem.1
    have htruthy : ttlTruthy e.ttlSeconds = true := by
      rcases h0 : e.ttlSeconds with _ | t
      · exact absurd h0 httl.1
      · rw [ttlTruthy]
        simp only [decide_eq_true_eq, ne_eq]
        intro hc
        exact httl.2 (by rw [h0, hc])
    rw [cacheGet]
    simp only [he]
    rw [if_pos ⟨htruthy, hexp⟩]
    exact ⟨rfl, lookupEntry_filter_del k s.entries⟩
  · intro e he hexp
    rw [cacheGet]
    simp only [he]
    rw [if_neg (by simp [hexp])]

theorem c8_witness :
    TtlInv (cacheSet ⟨100, 3600⟩ 0 "k" (Val.vstr "v") "query_result" 3 none emptyCache) ∧
    (cacheGet 10 "k"
      (cacheSet ⟨100, 3600⟩ 0 "k" (Val.vstr "v") "query_result" 3 none emptyCache)).1 =
      some (Val.vstr "v") ∧
    (cacheGet 99999 "k"
      (cacheSet ⟨100, 3600⟩ 0 "k" (Val.vstr "v") "query_result" 3 none emptyCache)).1 = none := by
  have hent : (cacheSet ⟨100, 3600⟩ 0 "k" (Val.vstr "v") "query_result" 3
      none emptyCache).entries =
      [mkSetEntry ⟨100, 3600⟩ 0 "k" (Val.vstr "v") "query_result" 3 none] := rfl
  have hinv : TtlInv
      (cacheSet ⟨100, 3600⟩ 0 "k" (Val.vstr "v") "query_result" 3 none emptyCache) := by
    intro e he
    rw [hent] at he
    rcases List.mem_singleton.mp he with rfl
    exact ⟨by simp [mkSetEntry, pyOrTtl], by simp [mkSetEntry, pyOrTtl]⟩
  refine ⟨hinv, ?_, ?_⟩
  · exact (c8_get_miss_on_expired _ 10 "k" hinv).2.2
      { key := "k", value := Val.vstr "v", cacheType := "query_result", createdAt := 0,
        lastAccessed := 0, accessCount := 0, ttlSeconds := some 3600, sizeBytes := 3 }
      rfl (by decide)
  · exact ((c8_get_miss_on_expired _ 99999 "k" hinv).2.1
      { key := "k", value := Val.vstr "v", cacheType := "query_result", createdAt := 0,
        lastAccessed := 0, accessCount := 0, ttlSeconds := some 3600, sizeBytes := 3 }
      rfl (by decide)).1

/-! ## Claim C10 -/

/-- C10: `set` with `ttl_seconds` equal to `0` or `None` stores the entry
with the configured default TTL (`ttl_seconds or default_ttl_seconds`
replaces a falsy argument), and in general no entry created through `set`
carries an absent TTL — nor a zero TTL whenever the configured default is
nonzero (3600 in the default configuration). -/
theorem c10_set_ttl_defaulting (cfg : CacheConfig) (now : Int) (k : String) (v : Val)
    (ct : String) (sz : Nat) (s : CacheState) :
    (∀ ttl, ttl = none ∨ ttl = some 0 →
       lookupEntry k (cacheSet cfg now k v ct sz ttl s).entries =
         some { key := k, value := v, cacheType := ct, createdAt := now, lastAccessed := now,
                accessCount := 0, ttlSeconds := some cfg.defaultTtlSeconds, sizeBytes := sz }) ∧
    (∀ ttl e, lookupEntry k (cacheSet cfg now k v ct sz ttl s).entries = some e →
       e.ttlSeconds ≠ none ∧ (cfg.defaultTtlSeconds ≠ 0 → e.ttlSeconds ≠ some 0)) := by
  constructor
  · intro ttl httl
    have hself : lookupEntry k (cacheSet cfg now k v ct sz ttl s).entries =
        some (mkSetEntry cfg now k v ct sz ttl) :=
      lookupEntry_insertEntry_self (mkSetEntry cfg now k v ct sz ttl)
        (checkAndEvict cfg sz s).entries
    rcases httl with rfl | rfl
    · simpa [mkSetEntry, pyOrTtl] using hself
    · simpa [mkSetEntry, pyOrTtl] using hself
  · intro ttl e he
    have hself : lookupEntry k (cacheSet cfg now k v ct sz ttl s).entries =
        some (mkSetEntry cfg now k v ct sz ttl) :=
      lookupEntry_insertEntry_self (mkSetEntry cfg now k v ct sz ttl)
        (checkAndEvict cfg sz s).entries
    rw [hself] at he
    injection he with he'
    subst he'
    refine ⟨by simp [mkSetEntry], ?_⟩
    intro hd
    simp only [mkSetEntry, Option.some.injEq, ne_eq]
    intro hc
    rcases ttl with _ | t
    · exact hd hc
    · by_cases ht : t = 0
      · rw [pyOrTtl, if_pos ht] at hc; exact hd hc
      · rw [pyOrTtl, if_neg ht] at hc; exact ht hc

theorem c10_witness :
    lookupEntry "k" (cacheSet ⟨100, 3600⟩ 5 "k" (Val.vstr "v") "query_result" 3
        none emptyCache).entries =
      some { key := "k", value := Val.vstr "v", cacheType := "query_result", createdAt := 5,
             lastAccessed := 5, accessCount := 0, ttlSeconds := some 3600, sizeBytes := 3 } :=
  (c10_set_ttl_defaulting ⟨100, 3600⟩ 5 "k" (Val.vstr "v") "query_result" 3 emptyCache).1
    none (Or.inl rfl)

/-! ## Workflow lemmas -/

theorem nextNode_cases (n : WNode) (st : WState) (n2 : WNode)
    (h : nextNode n st = some n2) : n2 = WNode.errorH ∨ stepIdx n2 = stepIdx n + 1 := by
  cases n with
  | finalizeN => exact absurd h (by simp [nextNode])
  | errorH => exact absurd h (by simp [nextNode])
  | initializeN =>
    simp only [nextNode, Option.some.injEq] at h
    split at h
    · left; exact h.symm
    · right; rw [← h]; rfl
  | analyzeQ =>
    simp only [nextNode, Option.some.injEq] at h
    split at h
    · left; exact h.symm
    · right; rw [← h]; rfl
  | executeA =>
    simp only [nextNode, Option.some.injEq] at h
    split at h
    · left; exact h.symm
    · right; rw [← h]; rfl
  | combineR =>
    simp only [nextNode, Option.some.injEq] at h
    split at h
    · left; exact h.symm
    · right; rw [← h]; rfl
  | formatR =>
    simp only [nextNode, Option.some.injEq] at h
    split at h
    · left; exact h.symm
    · right; rw [← h]; rfl

theorem nextNode_some_idx_le (n : WNode) (st : WState) (n2 : WNode)
    (h : nextNode n st = some n2) : stepIdx n ≤ 4 := by
  cases n <;> simp [nextNode, stepIdx] at h ⊢

theorem runFrom_chain (env : OEnv) (fuel : Nat) :
    ∀ (n : WNode) (st : WState), List.Chain' stepOk (n :: (runFrom env fuel n st).2) := by
  induction fuel with
  | zero => intro n st; simp [runFrom]
  | succ f ih =>
    intro n st
    rw [runFrom]
    rcases h : nextNode n (runNode env n st) with _ | n2
    · simp [h]
    · simp only [h]
      rw [List.chain'_cons]
      exact ⟨nextNode_cases n (runNode env n st) n2 h, ih n2 (runNode env n st)⟩

/-- The error terminal always leaves a truthy `final_result`. -/
theorem errorHandlingNode_truthy (env : OEnv) (st : WState) :
    truthyOpt (errorHandlingNode env st).finalResult = true := by
  by_cases h : truthyOpt st.finalResult = true
  · simp [errorHandlingNode, h]
  · rcases hfin : st.finalResult with _ | v
    · simp [errorHandlingNode, hfin, truthyOpt, Val.truthy]
    · have hv : v.truthy = false := by
        rw [hfin] at h
        simpa [truthyOpt] using h
      simp only [errorHandlingNode, hfin, truthyOpt]
      rw [hv]
      simp [truthyOpt, Val.truthy]

/-- If the visit trace from `n` ends at the error terminal and the fuel
covers the remaining path, the final state carries a truthy
`final_result`. -/
theorem runFrom_errorH_final (env : OEnv) :
    ∀ (fuel : Nat) (n : WNode) (st : WState), 7 - stepIdx n ≤ fuel →
      (n :: (runFrom env fuel n st).2).getLast? = some WNode.errorH →
      truthyOpt (runFrom env fuel n st).1.finalResult = true := by
  intro fuel
  induction fuel with
  | zero =>
    intro n st hfuel
    cases n <;> simp [stepIdx] at hfuel
  | succ f ih =>
    intro n st hfuel hlast
    rw [runFrom] at hlast ⊢
    rcases h : nextNode n (runNode env n st) with _ | n2
    · simp only [h] at hlast ⊢
      have hn : n = WNode.errorH := by simpa using hlast
      subst hn
      exact errorHandlingNode_truthy env st
    · simp only [h] at hlast ⊢
      have hlast2 : (n2 :: (runFrom env f n2 (runNode env n st)).2).getLast? =
          some WNode.errorH := by
        rw [← List.getLast?_cons_cons]
        exact hlast
      have hidx := nextNode_some_idx_le n (runNode env n st) n2 h
      have hfuel2 : 7 - stepIdx n2 ≤ f := by
        rcases nextNode_cases n (runNode env n st) n2 h with h1 | h1
        · subst h1
          simp only [stepIdx]
          omega
        · omega
      exact ih n2 (runNode env n st) hfuel2 hlast2


/-! ## Claim C3 -/

/-- C3: along every workflow run, the visit trace only advances forward
through the declared order INITIALIZE, ANALYZE, EXECUTE, COMBINE, FORMAT,
FINALIZE or jumps directly to the ERROR terminal (`stepOk` chains the
trace); and after each non-terminal state's handler, the conditional edge
evaluates `_should_continue`: the next state is ERROR when
`WorkflowState.error` is truthily set, and the next state in the declared
sequence otherwise. -/
theorem c3_forward_or_error (env : OEnv) (q uid : String) :
    List.Chain' stepOk ((runWorkflow env q uid).2) ∧
    (∀ (n : WNode) (st : WState), n ≠ WNode.finalizeN → n ≠ WNode.errorH →
      nextNode n st = some (if errTruthy st then WNode.errorH else seqSucc n)) := by
  constructor
  · have h := runFrom_chain env 7 WNode.initializeN (initState q uid)
    simpa [runWorkflow] using h
  · intro n st h1 h2
    cases n <;> first
      | rfl
      | exact absurd rfl h1
      | exact absurd rfl h2

theorem c3_witness :
    List.Chain' stepOk ((runWorkflow envErr "q" "u").2) ∧
    nextNode WNode.executeA stErrW = some WNode.errorH := by
  refine ⟨(c3_forward_or_error envErr "q" "u").1, ?_⟩
  have h := (c3_forward_or_error envErr "q" "u").2 WNode.executeA stErrW
    (by decide) (by decide)
  rw [h]
  rfl

/-! ## Claim C4 -/

/-- C4: the ERROR terminal always exits with a truthy (non-nil)
`final_result`, substituting the structured error payload when none was
set; and `execute_workflow` always hands the caller a response of the fixed
seven-key shape with a `result` field present, even when the workflow
invocation itself raises; a run whose trace ends at the ERROR terminal ends
with a truthy `final_result`. -/
theorem executeWorkflow_shape (env : OEnv) (q uid : String) :
    (executeWorkflow env q uid).map Prod.fst =
      ["query", "user_id", "result", "metadata", "messages", "workflow_id", "status"] ∧
    ∃ v, lookupField "result" (executeWorkflow env q uid) = some v := by
  rw [executeWorkflow]
  split
  · rw [fallbackOrchestration]
    rcases env.fallbackRaises with _ | e
    · exact ⟨rfl, ⟨_, rfl⟩⟩
    · exact ⟨rfl, ⟨_, rfl⟩⟩
  · rcases env.ainvokeRaises with _ | e
    · exact ⟨rfl, ⟨_, rfl⟩⟩
    · exact ⟨rfl, ⟨_, rfl⟩⟩

theorem c4_error_result_wellformed (env : OEnv) :
    (∀ st, truthyOpt (errorHandlingNode env st).finalResult = true ∧
       (truthyOpt st.finalResult = false →
         (errorHandlingNode env st).finalResult =
           some (Val.obj [("type", .vstr "error"), ("error", errorVal st),
                          ("timestamp", .vstr env.nowStr)]))) ∧
    (∀ q uid, (executeWorkflow env q uid).map Prod.fst =
        ["query", "user_id", "result", "metadata", "messages", "workflow_id", "status"] ∧
      ∃ v, lookupField "result" (executeWorkflow env q uid) = some v) ∧
    (∀ q uid, ((runWorkflow env q uid).2).getLast? = some WNode.errorH →
        truthyOpt (runWorkflow env q uid).1.finalResult = true) := by
  refine ⟨?_, ?_, ?_⟩
  · intro st
    refine ⟨errorHandlingNode_truthy env st, ?_⟩
    intro h
    rcases hfin : st.finalResult with _ | v
    · simp [errorHandlingNode, hfin, truthyOpt, errorVal]
    · have hv : v.truthy = false := by
        rw [hfin] at h
        simpa [truthyOpt] using h
      simp only [errorHandlingNode, hfin, truthyOpt]
      rw [hv]
      simp [errorVal]
  · exact executeWorkflow_shape env
  · intro q uid hlast
    have h7 : 7 - stepIdx WNode.initializeN ≤ 7 := by simp [stepIdx]
    have hfin := runFrom_errorH_final env 7 WNode.initializeN (initState q uid) h7
    apply hfin
    simpa [runWorkflow] using hlast

theorem c4_witness :
    truthyOpt (runWorkflow envErr "q" "u").1.finalResult = true ∧
    (executeWorkflow envErr "q" "u").map Prod.fst =
      ["query", "user_id", "result", "metadata", "messages", "workflow_id", "status"] := by
  refine ⟨(c4_error_result_wellformed envErr).2.2 "q" "u" ?_,
    ((c4_error_result_wellformed envErr).2.1 "q" "u").1⟩
  rfl

/-! ## Claim C2 -/

/-- C2, counterexample: with three capabilities of which the news handler
always errors, the research handler exceeds its timeout and the sentiment
handler succeeds and validates, the coordinator does NOT record an outcome
for each of the three: the single `asyncio.wait_for` deadline wraps the
gather of all tasks, so the slow capability times the whole gather out —
zero outcomes are recorded, an error is set, and the final result is the
timeout error payload instead of a non-error result built from the one
validated outcome. -/
theorem c2_counterexample :
    (runWorkflow envC2 "sentiment research news" "u").1.agentResults.length = 0 ∧
    (runWorkflow envC2 "sentiment research news" "u").1.error =
      some "Agent execution timeout after 60.0 seconds" ∧
    lookupField "result" (executeWorkflow envC2 "sentiment research news" "u") =
      some (Val.obj [("type", Val.vstr "error"),
        ("error", Val.vstr "Agent execution timeout after 60.0 seconds"),
        ("timestamp", Val.vstr "T0")]) :=
  ⟨rfl, rfl, rfl⟩

/-- C2 (amended): when no capability exceeds the global deadline, the
coordinator records an outcome for each of the three capabilities
independently — the raising one as an `{error, type: error}` outcome, the
error-marked one and the successful one as returned — one capability's
failure never prevents recording another's success; the combine step then
feeds only the non-error outcome to the summarizer and produces its result
without error.  (A capability exceeding the deadline instead aborts all
recording: see the counterexample.) -/
theorem c2_partial_failure (env : OEnv) (st : WState) (qa : Val) (e : String) (p2 p3 out : Val)
    (hqa : lookupField "query_analysis" st.metadata = some qa)
    (hsug : qa.get "suggested_agents" =
      some (Val.arr [.vstr "news_agent", .vstr "research_agent", .vstr "sentiment_agent"]))
    (ha1 : env.agents.contains "news_agent" = true)
    (ha2 : env.agents.contains "research_agent" = true)
    (ha3 : env.agents.contains "sentiment_agent" = true)
    (hasum : env.agents.contains "summarizer_agent" = true)
    (hr1 : env.runs "news_agent" = .error e)
    (he : e ≠ "")
    (hr2 : env.runs "research_agent" = .ok p2)
    (hp2 : truthyOpt (p2.get "error") = true)
    (hr3 : env.runs "sentiment_agent" = .ok p3)
    (hp3 : truthyOpt (p3.get "error") = false)
    (ht : env.globalTimeout = false)
    (herr : st.error = none)
    (hres : st.agentResults = [])
    (hsum : env.summarize st.query [("sentiment_agent", p3)] = .ok out) :
    (executeAgentsNode env st).agentResults =
      [("news_agent", errorOutcome e), ("research_agent", p2), ("sentiment_agent", p3)] ∧
    (executeAgentsNode env st).error = none ∧
    (combineNode env (executeAgentsNode env st)).finalResult = some out ∧
    (combineNode env (executeAgentsNode env st)).error = none := by
  have hexec : executeAgentsNode env st =
      { st with
        currentStep := "execute_agents",
        agentResults := [("news_agent", errorOutcome e), ("research_agent", p2),
          ("sentiment_agent", p3)],
        messages := st.messages ++ ["Executed agents"] } := by
    have hm1 : "news_agent" ∈ env.agents := by simpa using ha1
    have hm2 : "research_agent" ∈ env.agents := by simpa using ha2
    have hm3 : "sentiment_agent" ∈ env.agents := by simpa using ha3
    rw [executeAgentsNode]
    simp [hqa, hsug, hr1, hr2, hr3, hres, ht, hm1, hm2, hm3, setField]
  have herr2 : truthyOpt ((errorOutcome e).get "error") = true := by
    simp [errorOutcome, Val.get, lookupField, truthyOpt, Val.truthy, he]
  refine ⟨by rw [hexec], by rw [hexec]; exact herr, ?_, ?_⟩
  · rw [hexec, combineNode]
    simp only [hasum]
    simp [List.filter, herr2, hp2, hp3, hsum]
  · rw [hexec, combineNode]
    simp only [hasum]
    simp [List.filter, herr2, hp2, hp3, hsum, herr]

theorem c2_witness :
    lookupField "query_analysis" stC2.metadata =
      some (Val.obj [("intent", .vstr "news"), ("complexity", .vstr "simple"),
        ("suggested_agents", Val.arr [.vstr "news_agent", .vstr "research_agent",
          .vstr "sentiment_agent"])]) ∧
    (executeAgentsNode envC2b stC2).agentResults =
      [("news_agent", errorOutcome "boom"),
       ("research_agent", Val.obj [("error", .vstr "no results")]),
       ("sentiment_agent", sentOkVal)] ∧
    (combineNode envC2b (executeAgentsNode envC2b stC2)).finalResult =
      some (Val.obj [("type", .vstr "summary"), ("n", .vnat 1)]) := by
  refine ⟨rfl, ?_, ?_⟩
  · exact (c2_partial_failure envC2b stC2 _ "boom" _ sentOkVal _ rfl rfl rfl rfl rfl rfl
      rfl (by decide) rfl (by decide) rfl (by decide) rfl rfl rfl rfl).1
  · exact (c2_partial_failure envC2b stC2 _ "boom" _ sentOkVal _ rfl rfl rfl rfl rfl rfl
      rfl (by decide) rfl (by decide) rfl (by decide) rfl rfl rfl rfl).2.2.1

/-! ## Claim C6 -/

/-- C6, counterexample: the degraded fallback response does NOT carry the
fields `query, capabilitiesUsed/agents_used, result, cached, timestamp`
claimed as its external shape: it returns the orchestrator's seven keys
`query, user_id, result, metadata, messages, workflow_id, status`, with
no `cached`, no `timestamp` and no `agents_used` key at all (only
`metadata.fallback = true` holds as claimed). -/
theorem c6_counterexample :
    (fallbackOrchestration envFb "q" "u").map Prod.fst =
      ["query", "user_id", "result", "metadata", "messages", "workflow_id", "status"] ∧
    lookupField "cached" (fallbackOrchestration envFb "q" "u") = none ∧
    lookupField "timestamp" (fallbackOrchestration envFb "q" "u") = none ∧
    lookupField "agents_used" (fallbackOrchestration envFb "q" "u") = none ∧
    lookupField "metadata" (fallbackOrchestration envFb "q" "u") =
      some (Val.obj [("status", .vstr "completed"), ("fallback", .vbool true)]) :=
  ⟨rfl, rfl, rfl, rfl, rfl⟩

/-- C6 (amended): when the full workflow graph is unavailable, the degraded
fallback produces a response with the same external shape as the full
workflow path — the seven keys `query, user_id, result, metadata, messages,
workflow_id, status` that `execute_workflow` returns in every branch — and
(on its non-raising path) `metadata.fallback = true`.  It does not have the
`ProcessQuery` shape `(query, capabilitiesUsed, result, cached, timestamp)`
named by the claim. -/
theorem c6_fallback_shape (env env2 : OEnv) (q q2 uid uid2 : String)
    (h : env.fallbackRaises = none) :
    (fallbackOrchestration env q uid).map Prod.fst =
      (executeWorkflow env2 q2 uid2).map Prod.fst ∧
    (∃ md, lookupField "metadata" (fallbackOrchestration env q uid) = some (Val.obj md) ∧
       lookupField "fallback" md = some (Val.vbool true)) := by
  constructor
  · have h1 : (fallbackOrchestration env q uid).map Prod.fst =
        ["query", "user_id", "result", "metadata", "messages", "workflow_id", "status"] := by
      rw [fallbackOrchestration, h]
      rfl
    have h2 : (executeWorkflow env2 q2 uid2).map Prod.fst =
        ["query", "user_id", "result", "metadata", "messages", "workflow_id", "status"] :=
      (executeWorkflow_shape env2 q2 uid2).1
    rw [h1, h2]
  · refine ⟨[("status", .vstr "completed"), ("fallback", .vbool true)], ?_, rfl⟩
    rw [fallbackOrchestration, h]
    rfl

theorem c6_witness :
    (fallbackOrchestration envFb "query one" "u1").map Prod.fst =
      (executeWorkflow baseOEnv "query two" "u2").map Prod.fst ∧
    (∃ md, lookupField "metadata" (fallbackOrchestration envFb "query one" "u1") =
        some (Val.obj md) ∧
       lookupField "fallback" md = some (Val.vbool true)) :=
  c6_fallback_shape envFb baseOEnv "query one" "query two" "u1" "u2" rfl

/-! ## Claim C7 -/

/-- The keyword pass adds nothing when no extracted keyword occurs in any
capability's keyword table. -/
theorem keywordSuggestions_of_no_hits (keywords : List String) :
    ∀ (caps : List (String × AgentCapability)) (base : List String),
      (∀ c ∈ caps, ∀ k ∈ keywords, c.2.keywords.contains k = false) →
      keywordSuggestions base keywords caps = base := by
  intro caps
  induction caps with
  | nil => intro base _; rfl
  | cons c rest ih =>
    intro base hno
    obtain ⟨n, cap⟩ := c
    rw [keywordSuggestions]
    have hany : (keywords.any fun k => cap.keywords.contains k) = false := by
      rw [List.any_eq_false]
      intro k hk
      have hc := hno (n, cap) (List.mem_cons_self _ _) k hk
      simpa using hc
    rw [hany]
    simp only [Bool.and_false, if_false]
    exact ih base (fun c hc => hno c (List.mem_cons_of_mem _ hc))

/-- C7, counterexample: the query `tech` scores 0 on every intent pattern,
so `Analyze` returns Unknown with confidence 0.0 — but the keyword table
pass still fires (`tech` is a news-capability keyword), so the suggested
capability is `news_agent`, not the claimed default `research_agent`. -/
theorem c7_counterexample :
    intentScore (lowerStr "tech").data newsPatterns = 0 ∧
    intentScore (lowerStr "tech").data researchPatterns = 0 ∧
    intentScore (lowerStr "tech").data sentimentPatterns = 0 ∧
    detectIntent (lowerStr "tech").data = (QueryIntent.unknown, 0) ∧
    (analyzeQuery "tech").suggestedAgents = ["news_agent"] :=
  ⟨rfl, rfl, rfl, rfl, rfl⟩

/-- C7 (amended): for every query whose intent-pattern score is 0 for all
intent categories, `Analyze` returns Unknown intent with confidence 0.0
(stored as the exact scaled value 0); and it suggests the default
capability `research_agent` when additionally none of the query's extracted
keywords appears in any capability's keyword table (otherwise the
keyword-table pass may suggest other capabilities, as the counterexample
shows). -/
theorem c7_unknown_default (q : String)
    (h0 : intentScore (lowerStr q).data newsPatterns = 0)
    (h1 : intentScore (lowerStr q).data researchPatterns = 0)
    (h2 : intentScore (lowerStr q).data sentimentPatterns = 0) :
    (analyzeQuery q).intent = QueryIntent.unknown ∧
    (analyzeQuery q).confidence3 = 0 ∧
    ((∀ c ∈ agentCapabilities, ∀ k ∈ extractKeywords (lowerStr q).data,
        c.2.keywords.contains k = false) →
      (analyzeQuery q).suggestedAgents = ["research_agent"]) := by
  have hdet : detectIntent (lowerStr q).data = (QueryIntent.unknown, 0) := by
    rw [detectIntent]
    simp [h0, h1, h2]
  refine ⟨?_, ?_, ?_⟩
  · rw [analyzeQuery]
    simp [hdet]
  · rw [analyzeQuery]
    simp [hdet]
  · intro hno
    rw [analyzeQuery]
    simp only [hdet]
    rw [suggestAgents]
    rw [keywordSuggestions_of_no_hits (extractKeywords (lowerStr q).data)
      agentCapabilities (intentSuggestions QueryIntent.unknown) hno]
    rfl

theorem c7_witness :
    (analyzeQuery "zzzz").intent = QueryIntent.unknown ∧
    (analyzeQuery "zzzz").confidence3 = 0 ∧
    (analyzeQuery "zzzz").suggestedAgents = ["research_agent"] := by
  have h := c7_unknown_default "zzzz" rfl rfl rfl
  exact ⟨h.1, h.2.1, h.2.2 (by decide)⟩

/-! ## Claim C9 -/

theorem find?_append_of_none {α : Type} (p : α → Bool) (l1 l2 : List α)
    (h : ∀ x ∈ l1, p x = false) : (l1 ++ l2).find? p = l2.find? p := by
  induction l1 with
  | nil => rfl
  | cons x xs ih =>
    rw [List.cons_append, List.find?]
    rw [h x (List.mem_cons_self _ _)]
    exact ih (fun y hy => h y (List.mem_cons_of_mem _ hy))

/-- A validated outcome of `analyze_sentiment` is necessarily from its
success branch, which tags the payload `type: sentiment_analysis` (the
empty-text and exception branches carry a truthy `error` field and fail
validation). -/
theorem analyzeSentiment_validated_type (text : String)
    (inner : Except String (String × Val)) (nowS : String)
    (h : validateAgentResult "sentiment_agent" (analyzeSentiment text inner nowS) = true) :
    (analyzeSentiment text inner nowS).get "type" = some (Val.vstr "sentiment_analysis") := by
  rw [analyzeSentiment.eq_def] at h ⊢
  by_cases htext : trimStr text = ""
  · rw [if_pos htext] at h
    exact absurd h (by decide)
  · rw [if_neg htext] at h ⊢
    rcases inner with e | v
    · exfalso
      have hne : ("Sentiment analysis failed: " ++ e) ≠ "" := by
        intro hc
        have hd := congrArg String.data hc
        simp [String.data_append] at hd
      simp [validateAgentResult, Val.get, lookupField, truthyOpt, Val.truthy, hne] at h
    · rfl

/-- C9: when the collected validated outcomes contain a sentiment-agent
outcome produced by `analyze_sentiment` and validated, and no earlier
outcome is from the sentiment agent, the result-combination step returns
that outcome's payload directly and does not use the summarizer (no
synthesis detour).  With exactly one validated sentiment outcome this is
the claimed short-circuit. -/
theorem c9_sentiment_short_circuit (env : MainEnv) (q text nowS : String)
    (inner : Except String (String × Val)) (pre post : List (String × Val))
    (hpre : ∀ p ∈ pre, p.1 ≠ "sentiment_agent")
    (hval : validateAgentResult "sentiment_agent" (analyzeSentiment text inner nowS) = true) :
    combineMainResults env q
        (pre ++ ("sentiment_agent", analyzeSentiment text inner nowS) :: post) =
      (analyzeSentiment text inner nowS, false) := by
  have htype := analyzeSentiment_validated_type text inner nowS hval
  have hfind : (pre ++ ("sentiment_agent", analyzeSentiment text inner nowS) :: post).find?
      (fun p =>
        p.1 = "sentiment_agent" &&
        (match p.2.get "type" with
         | some (Val.vstr t) => t = "sentiment_analysis"
         | _ => false)) = some ("sentiment_agent", analyzeSentiment text inner nowS) := by
    rw [find?_append_of_none]
    · rw [List.find?]
      simp [htype]
    · intro x hx
      simp [hpre x hx]
  cases hl : pre ++ ("sentiment_agent", analyzeSentiment text inner nowS) :: post with
  | nil => exact absurd hl (by simp)
  | cons hd tl =>
    rw [hl] at hfind
    obtain ⟨n0, r0⟩ := hd
    simp only [combineMainResults]
    simp [hfind]

/-! ## Claim C5 -/

/-- The post-miss body of `process_query` always caches exactly the value it
returns in its `result` field, keyed by the query's cache key. -/
theorem processQueryMain_cache (env : MainEnv) (cfg : CacheConfig) (cc : CacheState)
    (q uid : String) (flag : Bool) :
    ∃ res : Val,
      lookupField "result" (processQueryMain env cfg cc q uid flag).1 = some res ∧
      (processQueryMain env cfg cc q uid flag).2 =
        cacheSet cfg env.now (queryCacheKey q) res "query_result" res.size none cc := by
  rw [processQueryMain]
  by_cases hf : flag
  · rw [if_pos hf]
    obtain ⟨v, hv⟩ := (executeWorkflow_shape env.oenv q uid).2
    refine ⟨v, hv, ?_⟩
    simp only [hv]
  · rw [if_neg hf]
    exact ⟨_, by simp [lookupField], rfl⟩

/-- Reading back a key just written by `set` (with the caller-default TTL)
at the same instant returns the stored value, for a nonnegative configured
default TTL. -/
theorem cacheGet_after_set (cfg : CacheConfig) (now : Int) (k : String) (v : Val)
    (ct : String) (sz : Nat) (s : CacheState) (hd : 0 ≤ cfg.defaultTtlSeconds) :
    (cacheGet now k (cacheSet cfg now k v ct sz none s)).1 = some v := by
  have hl : lookupEntry k (cacheSet cfg now k v ct sz none s).entries =
      some (mkSetEntry cfg now k v ct sz none) :=
    lookupEntry_insertEntry_self (mkSetEntry cfg now k v ct sz none)
      (checkAndEvict cfg sz s).entries
  rw [cacheGet]
  simp only [hl]
  rw [if_neg]
  · rfl
  · rintro ⟨h1, h2⟩
    by_cases hd0 : cfg.defaultTtlSeconds = 0
    · simp [mkSetEntry, pyOrTtl, ttlTruthy, hd0] at h1
    · simp only [mkSetEntry, pyOrTtl, isExpired, decide_eq_true_eq] at h2
      omega

/-- A cache hit is reproducible: reading the same key again at the same
instant (after the access-info update) returns the same value. -/
theorem cacheGet_hit_idem (now : Int) (k : String) (s : CacheState) (v : Val)
    (h : (cacheGet now k s).1 = some v) :
    (cacheGet now k (cacheGet now k s).2).1 = some v := by
  rcases hl : lookupEntry k s.entries with _ | e
  · rw [cacheGet] at h
    simp [hl] at h
  · rw [cacheGet] at h
    simp only [hl] at h
    by_cases hguard : ttlTruthy e.ttlSeconds = true ∧ isExpired now e = true
    · rw [if_pos hguard] at h
      simp at h
    · rw [if_neg hguard] at h
      have hv : e.value = v := by simpa using h
      have hl2 : lookupEntry k (cacheGet now k s).2.entries =
          some { e with lastAccessed := now, accessCount := e.accessCount + 1 } := by
        rw [cacheGet]
        simp only [hl]
        rw [if_neg hguard]
        show lookupEntry k (touchEntry now k s.entries) = _
        rw [lookupEntry_touch, hl]
        rfl
      rw [cacheGet]
      simp only [hl2]
      rw [if_neg]
      · simpa using hv
      · exact hguard

/-- A repeat call on a cache whose entry for the query is a truthy hit
returns the cached-response shape. -/
theorem processQuery_next_hit (env : MainEnv) (cfg : CacheConfig) (cc : CacheState)
    (q uid2 : String) (res : Val)
    (hq : ¬ q = "") (hskip : skipsCache q = false)
    (hget : (cacheGet env.now (queryCacheKey q) cc).1 = some res)
    (htr : res.truthy = true) :
    processQuery env cfg cc q uid2 false =
      .ok ([("query", .vstr q), ("agents_used", .arr [.vstr "caching_agent"]),
            ("processing_time", .vnat 0), ("timestamp", .vstr env.nowStr),
            ("result", res), ("cached", .vbool true)],
           (cacheGet env.now (queryCacheKey q) cc).2) := by
  rw [processQuery, if_neg hq]
  simp only [hskip, Bool.false_eq_true, if_false, hget, htr, if_true]

/-- C5 (amended): for every query that does not contain a sentiment keyword
(`sentiment, emotion, feeling, mood, opinion, attitude, analyze` — those
skip the cache check entirely), if the first `ProcessQuery` call returns a
truthy `result` payload and no invalidation or expiry intervenes (same
clock instant, nonnegative default TTL), the second identical call returns
`cached = true` with a `result` payload identical to the first call's. -/
theorem c5_cached_second_call (env : MainEnv) (cfg : CacheConfig) (cache : CacheState)
    (q uid uid2 : String) (r1 : List (String × Val)) (c1 : CacheState) (res1 : Val)
    (hq : ¬ q = "")
    (hskip : skipsCache q = false)
    (httl : 0 ≤ cfg.defaultTtlSeconds)
    (h1 : processQuery env cfg cache q uid false = .ok (r1, c1))
    (hres : lookupField "result" r1 = some res1)
    (htr : res1.truthy = true) :
    processQuery env cfg c1 q uid2 false =
      .ok ([("query", .vstr q), ("agents_used", .arr [.vstr "caching_agent"]),
            ("processing_time", .vnat 0), ("timestamp", .vstr env.nowStr),
            ("result", res1), ("cached", .vbool true)],
           (cacheGet env.now (queryCacheKey q) c1).2) := by
  rw [processQuery, if_neg hq] at h1
  simp only [hskip, Bool.false_eq_true, if_false] at h1
  have hmain : ∀ cc : CacheState,
      (Except.ok (processQueryMain env cfg cc q uid false) :
        Except String (List (String × Val) × CacheState)) = .ok (r1, c1) →
      processQuery env cfg c1 q uid2 false =
        .ok ([("query", .vstr q), ("agents_used", .arr [.vstr "caching_agent"]),
              ("processing_time", .vnat 0), ("timestamp", .vstr env.nowStr),
              ("result", res1), ("cached", .vbool true)],
             (cacheGet env.now (queryCacheKey q) c1).2) := by
    intro cc hok
    obtain ⟨res, hres2, hc⟩ := processQueryMain_cache env cfg cc q uid false
    have hpair : processQueryMain env cfg cc q uid false = (r1, c1) := by
      injection hok
    have hr1 : (processQueryMain env cfg cc q uid false).1 = r1 := by rw [hpair]
    have hc1 : (processQueryMain env cfg cc q uid false).2 = c1 := by rw [hpair]
    rw [hr1] at hres2
    rw [hres2] at hres
    injection hres with hres
    subst hres
    have hc1' : c1 = cacheSet cfg env.now (queryCacheKey q) res "query_result"
        res.size none cc := by
      rw [← hc1, hc]
    have hget : (cacheGet env.now (queryCacheKey q) c1).1 = some res := by
      rw [hc1']
      exact cacheGet_after_set cfg env.now (queryCacheKey q) res "query_result"
        res.size cc httl
    exact processQuery_next_hit env cfg c1 q uid2 res hq hskip hget htr
  rcases hg : (cacheGet env.now (queryCacheKey q) cache).1 with _ | v
  · simp only [hg] at h1
    exact hmain _ h1
  · simp only [hg] at h1
    by_cases htv : v.truthy = true
    · rw [if_pos htv] at h1
      injection h1 with hpair
      injection hpair with hA hB
      subst hA
      subst hB
      have hv1 : v = res1 := by
        simpa [lookupField] using hres
      subst hv1
      have hget2 : (cacheGet env.now (queryCacheKey q)
          ((cacheGet env.now (queryCacheKey q) cache).2)).1 = some v :=
        cacheGet_hit_idem env.now (queryCacheKey q) cache v hg
      exact processQuery_next_hit env cfg _ q uid2 v hq hskip hget2 htr
    · rw [if_neg htv] at h1
      exact hmain _ h1

/-- C5, counterexample: a query containing a sentiment keyword skips the
cache check entirely (`main.py` line 172), so the second identical
`ProcessQuery` call recomputes and returns `cached = false`, contradicting
the claim for every query. -/
theorem c5_counterexample :
    skipsCache "sentiment" = true ∧
    c5run2 = .ok (exceptResp c5run2, exceptCache c5run2) ∧
    lookupField "cached" (exceptResp c5run2) = some (Val.vbool false) :=
  ⟨rfl, rfl, rfl⟩

theorem c5_witness :
    processQuery envMain cfgProd (exceptCache c5hello1) "hello" "u2" false =
      .ok ([("query", .vstr "hello"), ("agents_used", .arr [.vstr "caching_agent"]),
            ("processing_time", .vnat 0), ("timestamp", .vstr "T0"),
            ("result", c5hello1Res), ("cached", .vbool true)],
           (cacheGet 100 (queryCacheKey "hello") (exceptCache c5hello1)).2) :=
  c5_cached_second_call envMain cfgProd emptyCache "hello" "u" "u2"
    (exceptResp c5hello1) (exceptCache c5hello1) c5hello1Res (by decide) (by decide)
    (by decide) rfl rfl (by decide)

theorem c9_witness :
    validateAgentResult "sentiment_agent"
      (analyzeSentiment "good" (.ok ("positive", Val.vnat 1)) "T0") = true ∧
    combineMainResults envMain "good"
        [("news_agent", Val.obj [("articles", Val.arr [Val.vstr "a1"])]),
         ("sentiment_agent", analyzeSentiment "good" (.ok ("positive", Val.vnat 1)) "T0")] =
      (analyzeSentiment "good" (.ok ("positive", Val.vnat 1)) "T0", false) := by
  refine ⟨by decide, ?_⟩
  exact c9_sentiment_short_circuit envMain "good" "good" "T0" (.ok ("positive", Val.vnat 1))
    [("news_agent", Val.obj [("articles", Val.arr [Val.vstr "a1"])])] []
    (by decide) (by decide)

end AgentSys
